import Mathlib

/-!
Verification of the fm-agent estate-coordination core.

A shallow embedding of the rules engine of the `fm-agent` repository:
the milestone-schedule builder (`agents/onboarding.py`), the Steward sweep
(`agents/steward.py`), the ledger operations and the audit/intent-note layer
(`db/database.py`), and the conflict queries (`agents/steward.py`,
`agents/tabulator.py`).

Modelling conventions, used throughout:

* Timestamps.  The source stores `datetime.now().isoformat()` strings and
  compares them through `datetime.fromisoformat` and `timedelta.days`.
  We model instants at day granularity as `Int` (days since an arbitrary
  epoch).  Machine-written ISO strings always parse, and SQL `MIN`/`MAX`
  over uniformly formatted ISO strings is the chronological minimum/maximum,
  so day-valued `Int`s with `List.min?`/`List.max?` are a faithful model.
  Where the source both parses a stored string and slices it for display
  (`s[:10]`), a field is modelled as `DateStr`, the raw text paired with
  the result of `fromisoformat` (`none` = unparsable).
* Floats.  `int(total_days * 0.10)` and friends (weights, urgency
  multipliers) are modelled as exact rational floors (`tot * 10 / 100`
  in `Nat`).  The IEEE-754 result can differ from the exact floor by at
  most one day, only on boundary products; every ordering fact proved
  below has slack of several days at the relevant inputs, so no statement
  depends on that last day.
* Python truthiness of an optional string (`if s:`) is `none`-or-empty =
  falsy; of an optional integer (`if estate_id:`) it is `none`-or-zero =
  falsy.
* `MILESTONE_KEYS`, `DEFAULT_DURATIONS_DAYS` and the alert/milestone store
  helpers (`write_alert`, `resolve_alert_type`, `get_active_alerts`,
  `get_milestones`, `complete_milestone`) are imported by the agents from
  `db.database` but their definitions are not part of the provided source;
  they are modelled from the spec where marked.
-/

/-- A stored ISO date/time string: the raw text together with the result of
`datetime.fromisoformat` at day resolution (`none` models a parse failure). -/
structure DateStr where
  raw : String
  day : Option Int
deriving DecidableEq, Repr

/-- Python truthiness of an optional string column: `None` and `""` are falsy. -/
def dsTruthy : Option DateStr → Bool
  | none => false
  | some d => d.raw ≠ ""

/- ────────────────────────────────────────────────────────────────────────
   Milestone scheduler (agents/onboarding.py, build_milestone_schedule)
   ──────────────────────────────────────────────────────────────────────── -/

/-- Modelled from the spec: `MILESTONE_KEYS`, the fixed ordered set of
milestone keys, is imported from `db.database` whose definition is not in
the provided source.  The spec fixes the order: onboarding_complete,
inventory_complete, family_joined, claims_open, claims_closed,
conflicts_resolved, distribution_complete. -/
def milestoneKeys : List String :=
  ["onboarding_complete", "inventory_complete", "family_joined",
   "claims_open", "claims_closed", "conflicts_resolved",
   "distribution_complete"]

/-- The `labels` dict of `build_milestone_schedule`. -/
def milestoneLabel : String → String
  | "onboarding_complete" => "Schedule established"
  | "inventory_complete" => "Inventory complete"
  | "family_joined" => "All family members joined"
  | "claims_open" => "Claims period opens"
  | "claims_closed" => "Claims period closes"
  | "conflicts_resolved" => "All conflicts resolved"
  | "distribution_complete" => "Distribution complete"
  | _ => ""

/-- `int(duration * multiplier)` with multiplier
`{"urgent": 0.6, "normal": 1.0, "relaxed": 1.5}.get(urgency, 1.0)`,
as an exact rational floor. -/
def urgencyScale (urgency : String) (d : Nat) : Nat :=
  match urgency with
  | "urgent" => d * 6 / 10
  | "relaxed" => d * 15 / 10
  | _ => d

/-- One milestone dict produced by `build_milestone_schedule`
(`target_date` at day resolution). -/
structure PlanRow where
  key : String
  label : String
  targetDate : Int
  status : String
deriving DecidableEq, Repr

/-- Backward mode: `total_days = (end - today).days`, clamped below at 30. -/
def totalDaysOf (today endD : Int) : Nat :=
  if endD - today < 30 then 30 else (endD - today).toNat

/-- The `weights` dict of the backward branch: days back from the end date
per key (`int(total_days * w)` as exact floor; `weights.get(key, 30)`). -/
def weightDaysBack (tot : Nat) : String → Nat
  | "distribution_complete" => 0
  | "conflicts_resolved" => tot * 10 / 100
  | "claims_closed" => tot * 25 / 100
  | "claims_open" => tot * 35 / 100
  | "family_joined" => tot * 15 / 100
  | "inventory_complete" => tot * 20 / 100
  | "onboarding_complete" => 0
  | _ => 30

/-- One row of the backward branch. -/
def backwardRow (today endD : Int) (tot : Nat) (k : String) : PlanRow :=
  if k = "onboarding_complete" then
    ⟨k, milestoneLabel k, today, "complete"⟩
  else if k = "distribution_complete" then
    ⟨k, milestoneLabel k, endD, "pending"⟩
  else
    ⟨k, milestoneLabel k, endD - (weightDaysBack tot k : Int), "pending"⟩

/-- The backward-mode plan (a target end date is known). -/
def backwardPlan (today endD : Int) : List PlanRow :=
  milestoneKeys.map (backwardRow today endD (totalDaysOf today endD))

/-- The forward-branch walk: accumulate scaled default durations along the
key order; `onboarding_complete` targets today and leaves the cursor alone. -/
def forwardWalk (today : Int) (urgency : String) (durations : String → Nat)
    (cursor : Int) : List String → List PlanRow
  | [] => []
  | k :: ks =>
    if k = "onboarding_complete" then
      ⟨k, milestoneLabel k, today, "complete"⟩ ::
        forwardWalk today urgency durations cursor ks
    else
      let c2 := cursor + (urgencyScale urgency (durations k) : Int)
      ⟨k, milestoneLabel k, c2, "pending"⟩ ::
        forwardWalk today urgency durations c2 ks

/-- The forward-mode plan (no target date).  `durations` models
`DEFAULT_DURATIONS_DAYS.get(key, 30)`: the dict is imported from
`db.database`, whose definition is not in the provided source and whose
values the spec does not state, so it stays an arbitrary parameter. -/
def forwardPlan (today : Int) (urgency : String)
    (durations : String → Nat) : List PlanRow :=
  forwardWalk today urgency durations today milestoneKeys

/-- `build_milestone_schedule(estate_id, target_end_date, urgency)`.
`target` models the `target_end_date` string argument (`none` = `None`);
a raw of `""` is falsy, and `day = none` models the
`datetime.fromisoformat` failure caught by the `try/except`, which
replaces the end date with `today + timedelta(days=180)`. -/
def buildMilestoneSchedule (today : Int) (target : Option DateStr)
    (urgency : String) (durations : String → Nat) : List PlanRow :=
  match target with
  | some t =>
    if t.raw = "" then forwardPlan today urgency durations
    else backwardPlan today (t.day.getD (today + 180))
  | none => forwardPlan today urgency durations

/- ────────────────────────────────────────────────────────────────────────
   Ledger data model (db/database.py tables)

   Rows carry the columns the verified operations read or write; free-text
   payload columns the rules engine never inspects (description, location,
   photo_url, ...) are elided.  Monetary NUMERIC columns are day-to-day
   integers here; no verified property compares fractional values.
   ──────────────────────────────────────────────────────────────────────── -/

/-- A JSON scalar stored in an audit `metadata` dict. -/
inductive MetaVal where
  | int (i : Int)
  | str (s : String)
deriving DecidableEq, Repr

/-- `family_members` row (columns read by the steward and member queries). -/
structure Member where
  estateId : Int
  name : String
  email : String
  role : String
  status : String
  invitedAt : Option DateStr
  joinedAt : Option DateStr
deriving DecidableEq, Repr

/-- `inventory_items` row. -/
structure Item where
  id : Int
  estateId : Int
  name : String
  status : String
deriving DecidableEq, Repr

/-- `claims` row. -/
structure ClaimRow where
  id : Int
  itemId : Int
  estateId : Int
  memberId : Int
  memberName : String
  claimType : String
  priority : Int
  status : String
  createdAt : Int
  resolvedAt : Option Int
deriving DecidableEq, Repr

/-- `distributions` row. -/
structure DistRow where
  itemId : Int
  estateId : Int
  memberId : Int
  memberName : String
  value : Int
  method : String
  distributedAt : Int
deriving DecidableEq, Repr

/-- `item_suggestions` row (columns the steward reads). -/
structure Suggestion where
  id : Int
  estateId : Int
  name : String
  suggestedByName : String
  status : String
  createdAt : DateStr
deriving DecidableEq, Repr

/-- `milestones` row.  Modelled from the spec: the milestone store
(`get_milestones` / `complete_milestone` / `set_milestones`) lives in the
part of `db.database` not in the provided source; the spec gives the row
shape (key, label, target_date, status with one row per key per estate). -/
structure MilestoneRow where
  estateId : Int
  key : String
  label : String
  targetDate : Option DateStr
  status : String
deriving DecidableEq, Repr

/-- `timeline_alerts` row.  Modelled from the spec: the alert store
(`write_alert` / `resolve_alert_type` / `get_active_alerts`) lives in the
part of `db.database` not in the provided source; the spec gives the row
shape (estate_id, alert_type, severity, message, detail, active flag,
created_at). -/
structure Alert where
  estateId : Int
  alertType : String
  severity : String
  message : String
  detail : String
  active : Bool
  createdAt : Int
deriving DecidableEq, Repr

/-- `audit_log` row. -/
structure AuditEntry where
  estateId : Int
  itemId : Option Int
  actionType : String
  actorId : Option Int
  actorName : String
  publicSummary : String
  metadata : List (String × MetaVal)
  createdAt : Int
deriving DecidableEq, Repr

/-- `intent_notes` row. -/
structure IntentNote where
  id : Int
  itemId : Int
  estateId : Int
  memberId : Int
  memberName : String
  content : String
  visibility : String
  createdAt : Int
  updatedAt : Int
deriving DecidableEq, Repr

/-- The columns `get_intent_notes` selects and returns per note. -/
structure NoteView where
  id : Int
  memberId : Int
  memberName : String
  content : String
  visibility : String
  createdAt : Int
deriving DecidableEq, Repr

/-- The whole persisted ledger.  Lists hold rows in insertion order (the
tables are append-or-update only), so `ORDER BY created_at ASC` is the
identity on machine-stamped rows. -/
structure DB where
  members : List Member
  items : List Item
  claims : List ClaimRow
  dists : List DistRow
  suggestions : List Suggestion
  milestones : List MilestoneRow
  alerts : List Alert
  auditLog : List AuditEntry
  notes : List IntentNote
  nextItemId : Int
  nextClaimId : Int
  nextNoteId : Int
deriving DecidableEq, Repr

/-- The empty ledger (freshly initialized tables; SERIAL ids start at 1). -/
def DB.empty : DB :=
  ⟨[], [], [], [], [], [], [], [], [], 1, 1, 1⟩

/- ────────────────────────────────────────────────────────────────────────
   db/database.py operations
   ──────────────────────────────────────────────────────────────────────── -/

/-- `write_audit(...)`: append one immutable audit row
(`metadata or {}` → the caller passes the dict, `None` becomes `[]`). -/
def writeAudit (db : DB) (estateId : Int) (actorName actionType
    publicSummary : String) (itemId : Option Int) (actorId : Option Int)
    (metadata : List (String × MetaVal)) (now : Int) : DB :=
  { db with auditLog := db.auditLog ++
      [⟨estateId, itemId, actionType, actorId, actorName, publicSummary,
        metadata, now⟩] }

/-- `add_item(estate_id, name, ...)`: insert with default status
`'unclaimed'`; returns the fresh id. -/
def addItem (db : DB) (estateId : Int) (name : String) : DB × Int :=
  ({ db with
      items := db.items ++ [⟨db.nextItemId, estateId, name, "unclaimed"⟩],
      nextItemId := db.nextItemId + 1 }, db.nextItemId)

/-- `add_claim(item_id, estate_id, member_id, member_name, claim_type,
priority, note)`: insert with default status `'pending'`; returns the
fresh id. -/
def addClaim (db : DB) (itemId estateId memberId : Int)
    (memberName claimType : String) (priority : Int) (now : Int) :
    DB × Int :=
  ({ db with
      claims := db.claims ++
        [⟨db.nextClaimId, itemId, estateId, memberId, memberName,
          claimType, priority, "pending", now, none⟩],
      nextClaimId := db.nextClaimId + 1 }, db.nextClaimId)

/-- `get_item_claims(item_id)`: the pending claims on one item. -/
def getItemClaims (db : DB) (itemId : Int) : List ClaimRow :=
  db.claims.filter (fun c => c.itemId = itemId ∧ c.status = "pending")

/-- `resolve_claim(item_id, winner_member_id, winner_name, method, value)`:
flip the item to `'distributed'`, mark every claim on the item resolved,
then insert a distribution row if the item's `estate_id` is truthy
(`row[0] if row else None; if estate_id:` — a missing item or a zero
estate id inserts nothing).  One connection, one commit: a single state
transition. -/
def resolveClaim (db : DB) (itemId winnerMemberId : Int)
    (winnerName method : String) (value : Int) (now : Int) : DB :=
  let items2 := db.items.map (fun i =>
    if i.id = itemId then { i with status := "distributed" } else i)
  let claims2 := db.claims.map (fun c =>
    if c.itemId = itemId then
      { c with status := "resolved", resolvedAt := some now } else c)
  let db2 := { db with items := items2, claims := claims2 }
  match items2.find? (fun i => i.id = itemId) with
  | none => db2
  | some i =>
    if i.estateId = 0 then db2
    else
      { db2 with dists := db2.dists ++
          [⟨itemId, i.estateId, winnerMemberId, winnerName, value,
            method, now⟩] }

/-- The conflict query of `get_conflicts_tool` (agents/tabulator.py):
items of the estate with status ≠ `'distributed'` joined to their pending
claims, grouped, `HAVING COUNT(cl.id) > 1`, reported as
(id, name, claim_count).  The `ORDER BY claim_count DESC` only permutes
the reported rows and is not modelled; every property below is about the
reported set. -/
def tabulatorConflicts (db : DB) (estateId : Int) :
    List (Int × String × Nat) :=
  db.items.filterMap (fun i =>
    if i.estateId = estateId ∧ i.status ≠ "distributed" then
      let pending := db.claims.filter
        (fun c => c.itemId = i.id ∧ c.status = "pending")
      if 1 < pending.length then some (i.id, i.name, pending.length)
      else none
    else none)

/-- One conflict row as `read_estate_state` (agents/steward.py) reports it:
item id, item name, and `MIN(cl.created_at)` over the pending claims. -/
structure ConflictRow where
  id : Int
  name : String
  oldestClaim : Option Int
deriving DecidableEq, Repr

/-- The conflict query of `read_estate_state` (agents/steward.py): same
join/filter/grouping as the tabulator's, reporting the oldest pending
claim instead of the count. -/
def stewardConflicts (db : DB) (estateId : Int) : List ConflictRow :=
  db.items.filterMap (fun i =>
    if i.estateId = estateId ∧ i.status ≠ "distributed" then
      let pending := db.claims.filter
        (fun c => c.itemId = i.id ∧ c.status = "pending")
      if 1 < pending.length then
        some ⟨i.id, i.name, (pending.map (fun c => c.createdAt)).min?⟩
      else none
    else none)

/- ────────────────────────────────────────────────────────────────────────
   Intent notes and visibility control (db/database.py)
   ──────────────────────────────────────────────────────────────────────── -/

/-- Errors the intent-note operations raise. -/
inductive NoteErr where
  /-- `ValueError` (`set_note_visibility` on an invalid visibility value). -/
  | valueError
  /-- `PermissionError` (`set_note_visibility` by a non-author). -/
  | permissionError
  /-- `sqlite3.OperationalError`: a prepared statement whose column list
  and value list disagree. -/
  | sqlBindingMismatch
deriving DecidableEq, Repr

/-- `add_intent_note(item_id, estate_id, member_id, member_name, content)`.
`usePostgres` models `USE_POSTGRES`.  The PostgreSQL branch inserts the
row with the literal visibility `'private'`, then writes the audit entry
`"{member_name} added a private note."` with empty metadata, and returns
the new id.  The SQLite branch's INSERT lists eight columns but supplies
only seven values — the `content` placeholder is missing from
`VALUES (?,?,?,?,'private',?,?)` — so `sqlite3` raises at `execute`,
before any row is written or committed: the ledger is unchanged. -/
def addIntentNote (usePostgres : Bool) (db : DB)
    (itemId estateId memberId : Int) (memberName content : String)
    (now : Int) : Except NoteErr (DB × Int) :=
  if usePostgres then
    let noteId := db.nextNoteId
    let db2 := { db with
      notes := db.notes ++
        [⟨noteId, itemId, estateId, memberId, memberName, content,
          "private", now, now⟩],
      nextNoteId := db.nextNoteId + 1 }
    let db3 := writeAudit db2 estateId memberName "note_added"
      (memberName ++ " added a private note.") (some itemId)
      (some memberId) [] now
    .ok (db3, noteId)
  else
    .error .sqlBindingMismatch

/-- The `labels` dict of `set_note_visibility`. -/
def visibilityLabel : String → String
  | "private" => "made their note private"
  | "mediator" => "shared their note with the Mediator"
  | "morris" => "shared their note with Morris"
  | "public" => "shared their note publicly"
  | _ => ""

/-- `set_note_visibility(note_id, member_id, member_name, estate_id,
item_id, new_visibility)`.  An invalid visibility raises `ValueError`
before anything is read; then ownership is checked on the first row with
the note id (`fetchone`), raising `PermissionError` when the row is
missing or its `member_id` differs; on success the note's visibility and
`updated_at` are updated and the change is audited by label, with
metadata `{"note_id": ..., "new_visibility": ...}`.  An error leaves the
ledger unchanged (the raise happens before the UPDATE / after closing
the connection uncommitted). -/
def setNoteVisibility (db : DB) (noteId memberId : Int)
    (memberName : String) (estateId itemId : Int) (newVisibility : String)
    (now : Int) : Except NoteErr DB :=
  if newVisibility ≠ "private" ∧ newVisibility ≠ "mediator" ∧
      newVisibility ≠ "morris" ∧ newVisibility ≠ "public" then
    .error .valueError
  else
    match db.notes.find? (fun n => n.id = noteId) with
    | none => .error .permissionError
    | some n =>
      if n.memberId ≠ memberId then .error .permissionError
      else
        let db2 := { db with
          notes := db.notes.map (fun m =>
            if m.id = noteId then
              { m with visibility := newVisibility, updatedAt := now }
            else m) }
        .ok (writeAudit db2 estateId memberName "visibility_changed"
          (memberName ++ " " ++ visibilityLabel newVisibility ++ ".")
          (some itemId) (some memberId)
          [("note_id", .int noteId), ("new_visibility", .str newVisibility)]
          now)

/-- The projection `SELECT id, member_id, member_name, content, visibility,
created_at` of `get_intent_notes`. -/
def IntentNote.view (n : IntentNote) : NoteView :=
  ⟨n.id, n.memberId, n.memberName, n.content, n.visibility, n.createdAt⟩

/-- The `can_read` predicate of `get_intent_notes`. -/
def canReadNote (memberId : Int) (isMorris isMediator : Bool)
    (n : NoteView) : Bool :=
  n.memberId = memberId ∨ n.visibility = "public" ∨
    (isMorris ∧ n.visibility = "morris") ∨
    (isMediator ∧ n.visibility = "mediator")

/-- `get_intent_notes(item_id, member_id, is_morris, is_mediator)`: select
the item's notes, keep exactly those the viewer may read; an unauthorized
note is dropped, never redacted. -/
def getIntentNotes (db : DB) (itemId memberId : Int)
    (isMorris isMediator : Bool) : List NoteView :=
  (((db.notes.filter (fun n => n.itemId = itemId)).map
      IntentNote.view).filter (canReadNote memberId isMorris isMediator))

/- ────────────────────────────────────────────────────────────────────────
   Steward sweep engine (agents/steward.py)
   ──────────────────────────────────────────────────────────────────────── -/

/-- Modelled from the spec: `write_alert` is imported from `db.database`
but not defined in the provided source.  Per the spec's alert lifecycle
it appends one active alert row stamped now. -/
def writeAlert (db : DB) (estateId : Int)
    (alertType severity message detail : String) (now : Int) : DB :=
  { db with alerts := db.alerts ++
      [⟨estateId, alertType, severity, message, detail, true, now⟩] }

/-- Modelled from the spec: `resolve_alert_type` is imported from
`db.database` but not defined in the provided source.  Per the spec's
step 1 of the sweep it deactivates every currently active alert of the
given type for the estate (a full type-level reset). -/
def resolveAlertTypeOne (estateId : Int) (alertType : String)
    (a : Alert) : Alert :=
  if a.estateId = estateId ∧ a.alertType = alertType ∧ a.active then
    { a with active := false }
  else a

/-- `resolve_alert_type(estate_id, alert_type)` over the whole table. -/
def resolveAlertType (db : DB) (estateId : Int) (alertType : String) : DB :=
  { db with alerts := db.alerts.map (resolveAlertTypeOne estateId alertType) }

/-- Modelled from the spec: `get_active_alerts` is imported from
`db.database` but not defined in the provided source.  It returns the
estate's alerts whose active flag is set. -/
def getActiveAlerts (db : DB) (estateId : Int) : List Alert :=
  db.alerts.filter (fun a => a.estateId = estateId ∧ a.active)

/-- Modelled from the spec: `get_milestones` is imported from `db.database`
but not defined in the provided source.  It returns the estate's
milestone rows. -/
def getMilestones (db : DB) (estateId : Int) : List MilestoneRow :=
  db.milestones.filter (fun m => m.estateId = estateId)

/-- Modelled from the spec: `complete_milestone` is imported from
`db.database` but not defined in the provided source.  It marks the
estate's milestone row of the given key complete. -/
def completeRows (rows : List MilestoneRow) (estateId : Int)
    (key : String) : List MilestoneRow :=
  rows.map (fun m =>
    if m.estateId = estateId ∧ m.key = key then
      { m with status := "complete" }
    else m)

/-- `complete_milestone` over the whole ledger. -/
def completeMilestone (db : DB) (estateId : Int) (key : String) : DB :=
  { db with milestones := completeRows db.milestones estateId key }

/-- The dict `read_estate_state` returns (the steward's point-in-time
snapshot; `now` is the single instant of the sweep — every
`datetime.now()` call inside one sweep is the same day). -/
structure EstateState where
  members : List Member
  totalItems : Nat
  conflicts : List ConflictRow
  pendingSuggestions : List Suggestion
  now : Int
deriving Repr

/-- `read_estate_state(estate_id)`. -/
def readEstateState (db : DB) (estateId : Int) (now : Int) : EstateState :=
  ⟨db.members.filter (fun m => m.estateId = estateId),
   (db.items.filter (fun i => i.estateId = estateId)).length,
   stewardConflicts db estateId,
   db.suggestions.filter
     (fun s => s.estateId = estateId ∧ s.status = "pending"),
   now⟩

/-- `check_uninvited_members`, one member: skip unless status is
`'invited'` with a truthy, parseable `invited_at`; at ≥ 14 days waiting
the source writes severity `'warning'` (not `'critical'`), at ≥ 7 days
severity `'info'`. -/
def uninvitedAlert (estateId : Int) (now : Int) (m : Member) :
    Option Alert :=
  if m.status ≠ "invited" then none
  else match m.invitedAt with
  | none => none
  | some d =>
    if d.raw = "" then none
    else match d.day with
    | none => none
    | some invited =>
      let daysWaiting := now - invited
      if daysWaiting ≥ 14 then
        some ⟨estateId, "member_not_joined", "warning",
          m.name ++ " has not joined after " ++ toString daysWaiting ++
            " days.",
          "Invited: " ++ d.raw.take 10 ++ ". Email: " ++ m.email ++
            ". Consider a personal call or checking if the email is correct.",
          true, now⟩
      else if daysWaiting ≥ 7 then
        some ⟨estateId, "member_not_joined", "info",
          m.name ++ " has not joined yet (" ++ toString daysWaiting ++
            " days since invitation).",
          "Invited: " ++ d.raw.take 10 ++ ". A gentle reminder may help.",
          true, now⟩
      else none

/-- `check_conflicts`, one conflict row: skip a falsy `oldest_claim`
(machine-stamped claim timestamps always parse); ≥ 10 days open is
critical, ≥ 5 is a warning. -/
def conflictAlert (estateId : Int) (now : Int) (c : ConflictRow) :
    Option Alert :=
  match c.oldestClaim with
  | none => none
  | some since =>
    let daysOpen := now - since
    if daysOpen ≥ 10 then
      some ⟨estateId, "conflict_unresolved", "critical",
        "Conflict on \"" ++ c.name ++ "\" has been unresolved for " ++
          toString daysOpen ++ " days.",
        "Multiple claimants are waiting for a decision. This needs attention soon.",
        true, now⟩
    else if daysOpen ≥ 5 then
      some ⟨estateId, "conflict_unresolved", "warning",
        "Conflict on \"" ++ c.name ++ "\" has been open for " ++
          toString daysOpen ++ " days.",
        "Consider initiating a resolution — lottery, mediation, or executor decision.",
        true, now⟩
    else none

/-- `check_pending_suggestions`, one suggestion: ≥ 5 days waiting writes
severity `'warning'`, ≥ 2 days severity `'info'`. -/
def suggestionAlert (estateId : Int) (now : Int) (s : Suggestion) :
    Option Alert :=
  match s.createdAt.day with
  | none => none
  | some created =>
    let daysWaiting := now - created
    if daysWaiting ≥ 5 then
      some ⟨estateId, "suggestion_unreviewed", "warning",
        "\"" ++ s.name ++ "\" (suggested by " ++ s.suggestedByName ++
          ") has been waiting " ++ toString daysWaiting ++
          " days for review.",
        "Family members may be waiting on this before they can make claims.",
        true, now⟩
    else if daysWaiting ≥ 2 then
      some ⟨estateId, "suggestion_unreviewed", "info",
        "\"" ++ s.name ++ "\" suggested by " ++ s.suggestedByName ++
          " is awaiting your review.",
        "Submitted " ++ s.createdAt.raw.take 10 ++ ".",
        true, now⟩
    else none

/-- `check_milestones`, one milestone row: skip complete rows and falsy or
unparsable target dates; a past target is critical (`overdue`), one within
5 days is info (`upcoming`). -/
def milestoneAlert (estateId : Int) (now : Int) (m : MilestoneRow) :
    Option Alert :=
  if m.status = "complete" then none
  else match m.targetDate with
  | none => none
  | some d =>
    if d.raw = "" then none
    else match d.day with
    | none => none
    | some target =>
      let daysUntil := target - now
      if daysUntil < 0 then
        some ⟨estateId, "milestone_overdue", "critical",
          "Milestone overdue: \"" ++ m.label ++ "\" was due " ++
            toString (Int.natAbs daysUntil) ++ " days ago.",
          "Target date was " ++ d.raw.take 10 ++ ".", true, now⟩
      else if daysUntil ≤ 5 then
        some ⟨estateId, "milestone_upcoming", "info",
          "Milestone due in " ++ toString daysUntil ++ " day" ++
            (if daysUntil ≠ 1 then "s" else "") ++ ": \"" ++ m.label ++
            "\".",
          "Target date: " ++ d.raw.take 10 ++ ".", true, now⟩
      else none

/-- `check_inactivity`: the newest audit timestamp for the estate
(`ORDER BY created_at DESC LIMIT 1`); quiet for ≥ 7 days is info. -/
def inactivityAlert (estateId : Int) (now : Int)
    (auditLog : List AuditEntry) : Option Alert :=
  match ((auditLog.filter (fun e => e.estateId = estateId)).map
      (fun e => e.createdAt)).max? with
  | none => none
  | some last =>
    let daysQuiet := now - last
    if daysQuiet ≥ 7 then
      some ⟨estateId, "inactivity", "info",
        "No estate activity for " ++ toString daysQuiet ++ " days.",
        "It may be worth reaching out to the family to keep things moving.",
        true, now⟩
    else none

/-- The last-wins dict build `{m['key']: m for m in get_milestones(...)}`. -/
def lookupLastMilestone (ms : List MilestoneRow) (key : String) :
    Option MilestoneRow :=
  ms.foldl (fun acc m => if m.key = key then some m else acc) none

/-- `auto_complete_milestones(estate_id, state)`: complete `family_joined`
when every non-executor member has joined and the member list is nonempty;
complete `conflicts_resolved` when no conflicts remain and `claims_closed`
is already complete.  Both guards read the milestone dict built at entry. -/
def autoCompleteRows (rows : List MilestoneRow) (estateId : Int)
    (st : EstateState) : List MilestoneRow :=
  let ms := rows.filter (fun m => m.estateId = estateId)
  let rows1 :=
    match lookupLastMilestone ms "family_joined" with
    | none => rows
    | some fam =>
      if fam.status ≠ "complete" ∧
          (st.members.all (fun m =>
            if m.role ≠ "executor" then m.status = "joined" else true)) ∧
          st.members ≠ [] then
        completeRows rows estateId "family_joined"
      else rows
  match lookupLastMilestone ms "conflicts_resolved" with
  | none => rows1
  | some cr =>
    if cr.status ≠ "complete" ∧ st.conflicts = [] ∧
        ((lookupLastMilestone ms "claims_closed").map
          (fun m => m.status) = some "complete") then
      completeRows rows1 estateId "conflicts_resolved"
    else rows1

/-- `auto_complete_milestones` over the whole ledger (its milestone dict
`ms` is `get_milestones(estate_id)`, the estate's filtered rows). -/
def autoCompleteMilestones (db : DB) (estateId : Int) (st : EstateState) :
    DB :=
  { db with milestones := autoCompleteRows db.milestones estateId st }

/-- The fixed alert-type list `run_steward` resets. -/
def stewardAlertTypes : List String :=
  ["member_not_joined", "conflict_unresolved", "suggestion_unreviewed",
   "milestone_overdue", "milestone_upcoming", "inactivity"]

/-- The combined effect on one alert row of the six `resolve_alert_type`
calls of `run_steward` (in their call order). -/
def deactSteward (e : Int) (a : Alert) : Alert :=
  resolveAlertTypeOne e "inactivity"
    (resolveAlertTypeOne e "milestone_upcoming"
      (resolveAlertTypeOne e "milestone_overdue"
        (resolveAlertTypeOne e "suggestion_unreviewed"
          (resolveAlertTypeOne e "conflict_unresolved"
            (resolveAlertTypeOne e "member_not_joined" a)))))

/-- The fresh alerts one sweep writes, in write order (each `write_alert`
appends, so the five checks concatenate). -/
def sweepNewAlerts (estateId : Int) (now : Int) (st : EstateState)
    (ms : List MilestoneRow) (auditLog : List AuditEntry) : List Alert :=
  st.members.filterMap (uninvitedAlert estateId now) ++
    st.conflicts.filterMap (conflictAlert estateId now) ++
    st.pendingSuggestions.filterMap (suggestionAlert estateId now) ++
    ms.filterMap (milestoneAlert estateId now) ++
    (inactivityAlert estateId now auditLog).toList

/-- `run_steward(estate_id)`: reset the six alert types, read the estate
state, run the five checks, auto-complete eligible milestones, return the
active alerts. -/
def runSteward (db : DB) (estateId : Int) (now : Int) : DB × List Alert :=
  let db1 := stewardAlertTypes.foldl
    (fun d t => resolveAlertType d estateId t) db
  let st := readEstateState db1 estateId now
  let fresh := sweepNewAlerts estateId now st (getMilestones db1 estateId)
    db1.auditLog
  let db2 := { db1 with alerts := db1.alerts ++ fresh }
  let db3 := autoCompleteMilestones db2 estateId st
  (db3, getActiveAlerts db3 estateId)

/- ────────────────────────────────────────────────────────────────────────
   Ledger histories (reachability for the distribution invariant)
   ──────────────────────────────────────────────────────────────────────── -/

/-- One inventory/claims/distribution operation of `db/database.py`. -/
inductive LOp where
  | addItem (estateId : Int) (name : String)
  | addClaim (itemId estateId memberId : Int)
      (memberName claimType : String) (priority now : Int)
  | resolveClaim (itemId winnerMemberId : Int)
      (winnerName method : String) (value now : Int)

/-- Apply one operation to the ledger. -/
def applyLOp (db : DB) : LOp → DB
  | .addItem e n => (addItem db e n).1
  | .addClaim i e m nm ct p now => (addClaim db i e m nm ct p now).1
  | .resolveClaim i w nm meth v now => resolveClaim db i w nm meth v now

/-- The discipline under which the amended distribution invariant holds:
items are added under a real (nonzero) estate id, and no claim is added
to — nor a second resolution run against — an already-distributed item. -/
def LOpOk (db : DB) : LOp → Prop
  | .addItem e _ => e ≠ 0
  | .addClaim i _ _ _ _ _ _ =>
      ∀ it ∈ db.items, it.id = i → it.status ≠ "distributed"
  | .resolveClaim i _ _ _ _ _ =>
      ∀ it ∈ db.items, it.id = i → it.status ≠ "distributed"

/-- Ledgers reachable from freshly initialized tables through disciplined
operations. -/
inductive ReachableLedger : DB → Prop
  | empty : ReachableLedger DB.empty
  | step {db : DB} (op : LOp) : ReachableLedger db → LOpOk db op →
      ReachableLedger (applyLOp db op)

/-- The spec's distribution invariant: an item is distributed iff exactly
one distribution row references it and all its claims are resolved. -/
def DistributedIff (db : DB) : Prop :=
  ∀ i ∈ db.items,
    (i.status = "distributed" ↔
      ((db.dists.filter (fun d => d.itemId = i.id)).length = 1 ∧
        ∀ c ∈ db.claims, c.itemId = i.id → c.status = "resolved"))

/-- Bookkeeping facts carried through the induction: item ids stay below
the id counter, estates are real, and every distribution row points at an
existing, distributed item. -/
def LedgerGood (db : DB) : Prop :=
  (∀ i ∈ db.items, i.id < db.nextItemId ∧ i.estateId ≠ 0) ∧
    (∀ d ∈ db.dists, ∃ i ∈ db.items,
      i.id = d.itemId ∧ i.status = "distributed") ∧
    DistributedIff db

/- ────────────────────────────────────────────────────────────────────────
   Helper lemmas
   ──────────────────────────────────────────────────────────────────────── -/

theorem totalDaysOf_ge (today endD : Int) : 30 ≤ totalDaysOf today endD := by
  unfold totalDaysOf
  split
  · exact le_refl 30
  · rename_i h
    omega

theorem weight_div_mono {t a b : Nat} (h : a ≤ b) :
    t * a / 100 ≤ t * b / 100 :=
  Nat.div_le_div_right (Nat.mul_le_mul_left t h)

theorem weight_div_add_le (t a b : Nat) :
    t * a / 100 + t * b / 100 ≤ t * (a + b) / 100 := by
  rw [Nat.le_div_iff_mul_le (by omega : 0 < 100)]
  have h1 : t * a / 100 * 100 ≤ t * a := Nat.div_mul_le_self _ _
  have h2 : t * b / 100 * 100 ≤ t * b := Nat.div_mul_le_self _ _
  calc (t * a / 100 + t * b / 100) * 100
      = t * a / 100 * 100 + t * b / 100 * 100 := by ring
    _ ≤ t * a + t * b := Nat.add_le_add h1 h2
    _ = t * (a + b) := by ring

theorem weight_div_le_self (t a : Nat) (h : a ≤ 100) : t * a / 100 ≤ t := by
  calc t * a / 100 ≤ t * 100 / 100 := weight_div_mono h
    _ = t := by omega

/- ────────────────────────────────────────────────────────────────────────
   C3 — backward milestone dates and the fixed key order
   ──────────────────────────────────────────────────────────────────────── -/

/-- C3, counterexample: a plan built backward from an end date 100 days out
is NOT non-decreasing in the fixed key order — `family_joined` (weight 15%,
target day 85) lands after `claims_open` (weight 35%, target day 65). -/
theorem c3_counterexample :
    ¬ List.Chain' (· ≤ ·)
      ((buildMilestoneSchedule 0 (some ⟨"2000-04-10", some 100⟩) "normal"
        (fun _ => 30)).map PlanRow.targetDate) := by
  have hm : (buildMilestoneSchedule 0 (some ⟨"2000-04-10", some 100⟩)
      "normal" (fun _ => 30)).map PlanRow.targetDate =
      ([0, 80, 85, 65, 75, 90, 100] : List Int) := by decide
  rw [hm]
  intro h
  rw [List.chain'_iff_get] at h
  have h2 := h 2 (by norm_num)
  simp [List.get] at h2

theorem buildMilestoneSchedule_parsed (today endD : Int)
    (raw urgency : String) (durations : String → Nat) (h : raw ≠ "") :
    buildMilestoneSchedule today (some ⟨raw, some endD⟩) urgency durations =
      backwardPlan today endD := by
  unfold buildMilestoneSchedule
  simp [h]

theorem buildMilestoneSchedule_fallback (today : Int)
    (raw urgency : String) (durations : String → Nat) (h : raw ≠ "") :
    buildMilestoneSchedule today (some ⟨raw, none⟩) urgency durations =
      backwardPlan today (today + 180) := by
  unfold buildMilestoneSchedule
  simp [h]

theorem backwardPlan_targets (today endD : Int) :
    (backwardPlan today endD).map PlanRow.targetDate =
      [today,
       endD - (totalDaysOf today endD * 20 / 100 : Nat),
       endD - (totalDaysOf today endD * 15 / 100 : Nat),
       endD - (totalDaysOf today endD * 35 / 100 : Nat),
       endD - (totalDaysOf today endD * 25 / 100 : Nat),
       endD - (totalDaysOf today endD * 10 / 100 : Nat),
       endD] := rfl

/-- C3, amended: the claim's non-decreasing order fails only at the
`family_joined` → `claims_open` step, whose target is always strictly
earlier (weight 35% vs 15%); the remaining adjacent pairs are
non-decreasing, with the `onboarding_complete` → `inventory_complete` pair
requiring the target to lie at least 30 days out (otherwise the span is
clamped to 30 days and intermediate targets can precede today). -/
theorem c3_backward_order (today endD : Int) (raw urgency : String)
    (durations : String → Nat) (h : raw ≠ "") :
    ((((buildMilestoneSchedule today (some ⟨raw, some endD⟩) urgency
        durations).map PlanRow.targetDate).getD 1 0 ≤
      (((buildMilestoneSchedule today (some ⟨raw, some endD⟩) urgency
        durations).map PlanRow.targetDate)).getD 2 0) ∧
     (((buildMilestoneSchedule today (some ⟨raw, some endD⟩) urgency
        durations).map PlanRow.targetDate).getD 3 0 ≤
      ((buildMilestoneSchedule today (some ⟨raw, some endD⟩) urgency
        durations).map PlanRow.targetDate).getD 4 0) ∧
     (((buildMilestoneSchedule today (some ⟨raw, some endD⟩) urgency
        durations).map PlanRow.targetDate).getD 4 0 ≤
      ((buildMilestoneSchedule today (some ⟨raw, some endD⟩) urgency
        durations).map PlanRow.targetDate).getD 5 0) ∧
     (((buildMilestoneSchedule today (some ⟨raw, some endD⟩) urgency
        durations).map PlanRow.targetDate).getD 5 0 ≤
      ((buildMilestoneSchedule today (some ⟨raw, some endD⟩) urgency
        durations).map PlanRow.targetDate).getD 6 0) ∧
     (((buildMilestoneSchedule today (some ⟨raw, some endD⟩) urgency
        durations).map PlanRow.targetDate).getD 3 0 <
      ((buildMilestoneSchedule today (some ⟨raw, some endD⟩) urgency
        durations).map PlanRow.targetDate).getD 2 0) ∧
     (today + 30 ≤ endD →
      ((buildMilestoneSchedule today (some ⟨raw, some endD⟩) urgency
        durations).map PlanRow.targetDate).getD 0 0 ≤
      ((buildMilestoneSchedule today (some ⟨raw, some endD⟩) urgency
        durations).map PlanRow.targetDate).getD 1 0)) := by
  rw [buildMilestoneSchedule_parsed today endD raw urgency durations h,
    backwardPlan_targets]
  have h30 : 30 ≤ totalDaysOf today endD := totalDaysOf_ge today endD
  have h1520 : totalDaysOf today endD * 15 / 100 ≤
      totalDaysOf today endD * 20 / 100 := weight_div_mono (by omega)
  have h1025 : totalDaysOf today endD * 10 / 100 ≤
      totalDaysOf today endD * 25 / 100 := weight_div_mono (by omega)
  have h2535 : totalDaysOf today endD * 25 / 100 ≤
      totalDaysOf today endD * 35 / 100 := weight_div_mono (by omega)
  have h10z : 0 ≤ totalDaysOf today endD * 10 / 100 := Nat.zero_le _
  have h20six : 6 ≤ totalDaysOf today endD * 20 / 100 := by
    rw [Nat.le_div_iff_mul_le (by omega : 0 < 100)]
    omega
  have hadd : totalDaysOf today endD * 15 / 100 +
      totalDaysOf today endD * 20 / 100 ≤
      totalDaysOf today endD * 35 / 100 := by
    have := weight_div_add_le (totalDaysOf today endD) 15 20
    simpa using this
  have hstrict : totalDaysOf today endD * 15 / 100 <
      totalDaysOf today endD * 35 / 100 := by omega
  have h20le : totalDaysOf today endD * 20 / 100 ≤ totalDaysOf today endD :=
    weight_div_le_self _ _ (by omega)
  have hcast : today + 30 ≤ endD →
      (totalDaysOf today endD : Int) = endD - today := by
    intro hle
    unfold totalDaysOf
    rw [if_neg (by omega)]
    omega
  refine ⟨?_, ?_, ?_, ?_, ?_, ?_⟩ <;> simp [List.getD] <;> omega

/-- Witness for C3 at a concrete input (end date 100 days out). -/
theorem c3_backward_order_witness :
    ((((buildMilestoneSchedule 0 (some ⟨"2000-04-10", some 100⟩) "normal"
        (fun _ => 30)).map PlanRow.targetDate).getD 1 0 ≤ ((buildMilestoneSchedule 0 (some ⟨"2000-04-10", some 100⟩) "normal"
        (fun _ => 30)).map PlanRow.targetDate).getD 2 0) ∧
     (((buildMilestoneSchedule 0 (some ⟨"2000-04-10", some 100⟩) "normal"
        (fun _ => 30)).map PlanRow.targetDate).getD 3 0 ≤ ((buildMilestoneSchedule 0 (some ⟨"2000-04-10", some 100⟩) "normal"
        (fun _ => 30)).map PlanRow.targetDate).getD 4 0) ∧
     (((buildMilestoneSchedule 0 (some ⟨"2000-04-10", some 100⟩) "normal"
        (fun _ => 30)).map PlanRow.targetDate).getD 4 0 ≤ ((buildMilestoneSchedule 0 (some ⟨"2000-04-10", some 100⟩) "normal"
        (fun _ => 30)).map PlanRow.targetDate).getD 5 0) ∧
     (((buildMilestoneSchedule 0 (some ⟨"2000-04-10", some 100⟩) "normal"
        (fun _ => 30)).map PlanRow.targetDate).getD 5 0 ≤ ((buildMilestoneSchedule 0 (some ⟨"2000-04-10", some 100⟩) "normal"
        (fun _ => 30)).map PlanRow.targetDate).getD 6 0) ∧
     (((buildMilestoneSchedule 0 (some ⟨"2000-04-10", some 100⟩) "normal"
        (fun _ => 30)).map PlanRow.targetDate).getD 3 0 < ((buildMilestoneSchedule 0 (some ⟨"2000-04-10", some 100⟩) "normal"
        (fun _ => 30)).map PlanRow.targetDate).getD 2 0) ∧
     ((0:Int) + 30 ≤ 100 → ((buildMilestoneSchedule 0 (some ⟨"2000-04-10", some 100⟩) "normal"
        (fun _ => 30)).map PlanRow.targetDate).getD 0 0 ≤ ((buildMilestoneSchedule 0 (some ⟨"2000-04-10", some 100⟩) "normal"
        (fun _ => 30)).map PlanRow.targetDate).getD 1 0)) :=
  c3_backward_order 0 100 "2000-04-10" "normal" (fun _ => 30) (by decide)

theorem forwardPlan_targets (today : Int) (urgency : String)
    (d : String → Nat) :
    (forwardPlan today urgency d).map PlanRow.targetDate =
      [today,
       today + (urgencyScale urgency (d "inventory_complete") : Int),
       today + (urgencyScale urgency (d "inventory_complete") : Int) +
         (urgencyScale urgency (d "family_joined") : Int),
       today + (urgencyScale urgency (d "inventory_complete") : Int) +
         (urgencyScale urgency (d "family_joined") : Int) +
         (urgencyScale urgency (d "claims_open") : Int),
       today + (urgencyScale urgency (d "inventory_complete") : Int) +
         (urgencyScale urgency (d "family_joined") : Int) +
         (urgencyScale urgency (d "claims_open") : Int) +
         (urgencyScale urgency (d "claims_closed") : Int),
       today + (urgencyScale urgency (d "inventory_complete") : Int) +
         (urgencyScale urgency (d "family_joined") : Int) +
         (urgencyScale urgency (d "claims_open") : Int) +
         (urgencyScale urgency (d "claims_closed") : Int) +
         (urgencyScale urgency (d "conflicts_resolved") : Int),
       today + (urgencyScale urgency (d "inventory_complete") : Int) +
         (urgencyScale urgency (d "family_joined") : Int) +
         (urgencyScale urgency (d "claims_open") : Int) +
         (urgencyScale urgency (d "claims_closed") : Int) +
         (urgencyScale urgency (d "conflicts_resolved") : Int) +
         (urgencyScale urgency (d "distribution_complete") : Int)] := rfl

/-- C8, counterexample: the fallback plan produced for an unparsable end
date is not the forward-computed plan — for NO table of default per-phase
durations does forward mode produce it, because every forward plan has
`family_joined` ≤ `claims_open` while the fallback (backward over 180
days) puts `claims_open` 36 days earlier than `family_joined`. -/
theorem c8_counterexample :
    ¬ ∃ d : String → Nat, forwardPlan 0 "normal" d =
      buildMilestoneSchedule 0 (some ⟨"not-a-date", none⟩) "normal"
        (fun _ => 30) := by
  rintro ⟨d, heq⟩
  have h1 := congrArg (List.map PlanRow.targetDate) heq
  rw [forwardPlan_targets] at h1
  have h2 : (buildMilestoneSchedule 0 (some ⟨"not-a-date", none⟩) "normal"
      (fun _ => 30)).map PlanRow.targetDate =
      ([0, 144, 153, 117, 135, 162, 180] : List Int) := by decide
  rw [h2] at h1
  simp at h1
  omega

/-- C8, amended: a malformed or unparsable target end date does not raise
(the `try/except` replaces the end date with today + 180 days); the
builder then produces the BACKWARD-computed plan over that 180-day span,
not the forward-computed plan — no duration table makes forward mode
produce it. -/
theorem c8_fallback_is_backward180 (today : Int) (raw urgency : String)
    (durations d2 : String → Nat) (h : raw ≠ "") :
    buildMilestoneSchedule today (some ⟨raw, none⟩) urgency durations =
      backwardPlan today (today + 180) ∧
    buildMilestoneSchedule today (some ⟨raw, none⟩) urgency durations ≠
      forwardPlan today urgency d2 := by
  refine ⟨buildMilestoneSchedule_fallback today raw urgency durations h, ?_⟩
  intro heq
  rw [buildMilestoneSchedule_fallback today raw urgency durations h] at heq
  have h1 := congrArg (List.map PlanRow.targetDate) heq
  rw [forwardPlan_targets, backwardPlan_targets] at h1
  have ht : totalDaysOf today (today + 180) = 180 := by
    unfold totalDaysOf
    rw [if_neg (by omega)]
    omega
  rw [ht] at h1
  simp at h1
  omega

/-- Witness for C8 at a concrete input. -/
theorem c8_fallback_is_backward180_witness :
    buildMilestoneSchedule 0 (some ⟨"not-a-date", none⟩) "normal"
        (fun _ => 30) = backwardPlan 0 (0 + 180) ∧
    buildMilestoneSchedule 0 (some ⟨"not-a-date", none⟩) "normal"
        (fun _ => 30) ≠ forwardPlan 0 "normal" (fun _ => 45) :=
  c8_fallback_is_backward180 0 "not-a-date" "normal" (fun _ => 30)
    (fun _ => 45) (by decide)

/-- C4, confirmed: a private note of another author is never in the read
set `get_intent_notes` returns, for every combination of the morris and
mediator role flags; and everything returned is a stored note projected
unchanged (no redacted placeholders). -/
theorem c4_private_note_never_readable (db : DB) (itemId viewer : Int)
    (isMorris isMediator : Bool) (n : IntentNote) (hn : n ∈ db.notes)
    (hvis : n.visibility = "private") (hauth : n.memberId ≠ viewer) :
    IntentNote.view n ∉ getIntentNotes db itemId viewer isMorris isMediator ∧
    ∀ v ∈ getIntentNotes db itemId viewer isMorris isMediator,
      ∃ m ∈ db.notes, IntentNote.view m = v := by
  constructor
  · intro hmem
    simp only [getIntentNotes, List.mem_filter, List.mem_map,
      canReadNote, IntentNote.view] at hmem
    obtain ⟨-, hread⟩ := hmem
    rw [hvis] at hread
    simp at hread
    exact hauth hread
  · intro v hv
    simp only [getIntentNotes, List.mem_filter, List.mem_map] at hv
    obtain ⟨⟨m, hm, hview⟩, -⟩ := hv
    exact ⟨m, hm.1, hview⟩

/-- Witness for C4: a concrete ledger with a private note by member 1;
member 2 reading with both role flags set does not receive it. -/
theorem c4_private_note_never_readable_witness :
    IntentNote.view ⟨1, 1, 1, 1, "Ann", "wish", "private", 0, 0⟩ ∉
      getIntentNotes
        { DB.empty with
            notes := [⟨1, 1, 1, 1, "Ann", "wish", "private", 0, 0⟩] }
        1 2 true true ∧
    ∀ v ∈ getIntentNotes
        { DB.empty with
            notes := [⟨1, 1, 1, 1, "Ann", "wish", "private", 0, 0⟩] }
        1 2 true true,
      ∃ m ∈ ({ DB.empty with
            notes := [⟨1, 1, 1, 1, "Ann", "wish", "private", 0, 0⟩] } :
              DB).notes, IntentNote.view m = v :=
  c4_private_note_never_readable
    { DB.empty with
        notes := [⟨1, 1, 1, 1, "Ann", "wish", "private", 0, 0⟩] }
    1 2 true true ⟨1, 1, 1, 1, "Ann", "wish", "private", 0, 0⟩
    (by decide) (by decide) (by decide)

/-- C9, code bug: at the failing input (any call with `USE_POSTGRES`
false), `add_intent_note`'s SQLite INSERT lists eight columns but binds
seven values — the `content` placeholder is missing — so `sqlite3` raises
and nothing is written.  On the PostgreSQL branch the function behaves as
the claim states: the note is created with visibility `'private'`
(callers cannot supply one) and exactly one audit entry is appended whose
summary is the fixed `"... added a private note."` text and whose
metadata is empty, neither containing the note's content. -/
theorem c9_add_note_sqlite_broken :
    addIntentNote false DB.empty 1 1 2 "Dana" "secret wish" 10 =
      .error .sqlBindingMismatch ∧
    addIntentNote true DB.empty 1 1 2 "Dana" "secret wish" 10 =
      .ok (⟨[], [], [], [], [], [], [],
            [⟨1, some 1, "note_added", some 2, "Dana",
              "Dana added a private note.", [], 10⟩],
            [⟨1, 1, 1, 2, "Dana", "secret wish", "private", 10, 10⟩],
            1, 1, 2⟩, 1) := ⟨rfl, rfl⟩

/-- C6, counterexample: requester 2 is not the author (member 1) of the
only note, yet with an invalid visibility value the call fails with
`ValueError`, not the claimed permission error — the validity check runs
first. -/
theorem c6_counterexample :
    ({ DB.empty with
        notes := [⟨1, 1, 1, 1, "Ann", "wish", "private", 0, 0⟩] } :
          DB).notes.map IntentNote.memberId = [1] ∧
    setNoteVisibility
      { DB.empty with
          notes := [⟨1, 1, 1, 1, "Ann", "wish", "private", 0, 0⟩] }
      1 2 "Bob" 1 1 "bogus" 5 = .error .valueError ∧
    Except.error NoteErr.valueError ≠
      (Except.error NoteErr.permissionError : Except NoteErr DB) :=
  ⟨rfl, rfl, fun h => by injection h with h2; exact NoteErr.noConfusion h2⟩

/-- C6, amended: an invalid visibility value fails first with a
`ValueError` regardless of authorship; with a valid value a non-author
requester gets the permission error; the author with a valid value gets
the visibility update plus exactly one audit entry whose summary is built
from the actor name and the fixed label and whose metadata holds only the
note id and the new visibility — never the note's content.  An error is a
raise before the UPDATE (or before the uncommitted connection closes), so
the ledger is unchanged. -/
theorem c6_set_note_visibility (db : DB) (noteId memberId : Int)
    (memberName : String) (estateId itemId : Int) (v : String) (now : Int)
    (n : IntentNote)
    (hfind : db.notes.find? (fun m => m.id = noteId) = some n) :
    ((v ≠ "private" ∧ v ≠ "mediator" ∧ v ≠ "morris" ∧ v ≠ "public") →
      setNoteVisibility db noteId memberId memberName estateId itemId v now =
        .error .valueError) ∧
    ((v = "private" ∨ v = "mediator" ∨ v = "morris" ∨ v = "public") →
      n.memberId ≠ memberId →
      setNoteVisibility db noteId memberId memberName estateId itemId v now =
        .error .permissionError) ∧
    ((v = "private" ∨ v = "mediator" ∨ v = "morris" ∨ v = "public") →
      n.memberId = memberId →
      setNoteVisibility db noteId memberId memberName estateId itemId v now =
        .ok { db with
          notes := db.notes.map (fun m =>
            if m.id = noteId then
              { m with visibility := v, updatedAt := now }
            else m),
          auditLog := db.auditLog ++
            [⟨estateId, some itemId, "visibility_changed", some memberId,
              memberName, memberName ++ " " ++ visibilityLabel v ++ ".",
              [("note_id", .int noteId), ("new_visibility", .str v)],
              now⟩] }) := by
  refine ⟨?_, ?_, ?_⟩
  · intro hv
    simp [setNoteVisibility, hv]
  · intro hv hne
    have hcond : ¬ (v ≠ "private" ∧ v ≠ "mediator" ∧ v ≠ "morris" ∧
        v ≠ "public") := by
      rcases hv with h | h | h | h <;> simp [h]
    simp [setNoteVisibility, hcond, hfind, hne]
  · intro hv heq
    have hcond : ¬ (v ≠ "private" ∧ v ≠ "mediator" ∧ v ≠ "morris" ∧
        v ≠ "public") := by
      rcases hv with h | h | h | h <;> simp [h]
    simp [setNoteVisibility, hcond, hfind, heq, writeAudit]

/-- Witness for C6: the author (member 1) publishes their note; the update
and the content-free audit entry are exactly as stated. -/
theorem c6_set_note_visibility_witness :
    setNoteVisibility
      { DB.empty with
          notes := [⟨1, 1, 1, 1, "Ann", "wish", "private", 0, 0⟩] }
      1 1 "Ann" 1 1 "public" 5 =
    .ok { ({ DB.empty with
          notes := [⟨1, 1, 1, 1, "Ann", "wish", "private", 0, 0⟩] } : DB)
          with
      notes := ({ DB.empty with
          notes := [⟨1, 1, 1, 1, "Ann", "wish", "private", 0, 0⟩] } :
            DB).notes.map (fun m =>
        if m.id = 1 then { m with visibility := "public", updatedAt := 5 }
        else m),
      auditLog := ({ DB.empty with
          notes := [⟨1, 1, 1, 1, "Ann", "wish", "private", 0, 0⟩] } :
            DB).auditLog ++
        [⟨1, some 1, "visibility_changed", some 1, "Ann",
          "Ann " ++ visibilityLabel "public" ++ ".",
          [("note_id", .int 1), ("new_visibility", .str "public")], 5⟩] } :=
  (c6_set_note_visibility
    { DB.empty with
        notes := [⟨1, 1, 1, 1, "Ann", "wish", "private", 0, 0⟩] }
    1 1 "Ann" 1 1 "public" 5
    ⟨1, 1, 1, 1, "Ann", "wish", "private", 0, 0⟩ rfl).2.2
    (Or.inr (Or.inr (Or.inr rfl))) rfl

/-- C7, confirmed: both conflict queries report exactly the items of the
estate with two or more pending claims and status ≠ `'distributed'`, and
the pending-claim reader returns exactly the claimant identities holding
those pending claims. -/
theorem c7_conflict_detector (db : DB) (e : Int)
    (hids : (db.items.map Item.id).Nodup) (i : Item) (hi : i ∈ db.items) :
    (((i.id, i.name,
        (db.claims.filter
          (fun c => c.itemId = i.id ∧ c.status = "pending")).length) ∈
          tabulatorConflicts db e) ↔
      (i.estateId = e ∧ i.status ≠ "distributed" ∧
        2 ≤ (db.claims.filter
          (fun c => c.itemId = i.id ∧ c.status = "pending")).length)) ∧
    ((∃ r ∈ stewardConflicts db e, r.id = i.id) ↔
      (i.estateId = e ∧ i.status ≠ "distributed" ∧
        2 ≤ (db.claims.filter
          (fun c => c.itemId = i.id ∧ c.status = "pending")).length)) ∧
    (getItemClaims db i.id).map (fun c => (c.memberId, c.memberName)) =
      (db.claims.filter
        (fun c => c.itemId = i.id ∧ c.status = "pending")).map
        (fun c => (c.memberId, c.memberName)) := by
  have hinj : ∀ a ∈ db.items, a.id = i.id → a = i := by
    intro a ha hid
    exact List.inj_on_of_nodup_map hids ha hi hid
  refine ⟨⟨?_, ?_⟩, ⟨?_, ?_⟩, rfl⟩
  · intro hmem
    simp only [tabulatorConflicts, List.mem_filterMap] at hmem
    obtain ⟨a, ha, hfa⟩ := hmem
    split_ifs at hfa with h1 h2
    · simp only [Option.some.injEq, Prod.mk.injEq] at hfa
      have haeq : a = i := hinj a ha hfa.1
      subst haeq
      exact ⟨h1.1, h1.2, by omega⟩
  · intro hcond
    simp only [tabulatorConflicts, List.mem_filterMap]
    refine ⟨i, hi, ?_⟩
    rw [if_pos ⟨hcond.1, hcond.2.1⟩, if_pos (by omega)]
  · intro hmem
    obtain ⟨r, hr, hrid⟩ := hmem
    simp only [stewardConflicts, List.mem_filterMap] at hr
    obtain ⟨a, ha, hfa⟩ := hr
    split_ifs at hfa with h1 h2
    · simp only [Option.some.injEq] at hfa
      have hard : a.id = i.id := by rw [← hrid, ← hfa]
      have haeq : a = i := hinj a ha hard
      subst haeq
      exact ⟨h1.1, h1.2, by omega⟩
  · intro hcond
    refine ⟨⟨i.id, i.name,
      ((db.claims.filter
        (fun c => c.itemId = i.id ∧ c.status = "pending")).map
        (fun c => c.createdAt)).min?⟩, ?_, rfl⟩
    simp only [stewardConflicts, List.mem_filterMap]
    refine ⟨i, hi, ?_⟩
    rw [if_pos ⟨hcond.1, hcond.2.1⟩, if_pos (by omega)]

/-- Witness for C7: an item with two pending claims from two members is
reported by the tabulator conflict query with claim count 2. -/
theorem c7_conflict_detector_witness :
    ((1 : Int), ("Clock", (2 : Nat))) ∈
      tabulatorConflicts
        { DB.empty with
            items := [⟨1, 1, "Clock", "unclaimed"⟩],
            claims := [⟨1, 1, 1, 2, "Ann", "want", 1, "pending", 0, none⟩,
                       ⟨2, 1, 1, 3, "Bob", "want", 1, "pending", 0, none⟩] }
        1 :=
  (c7_conflict_detector
    { DB.empty with
        items := [⟨1, 1, "Clock", "unclaimed"⟩],
        claims := [⟨1, 1, 1, 2, "Ann", "want", 1, "pending", 0, none⟩,
                   ⟨2, 1, 1, 3, "Bob", "want", 1, "pending", 0, none⟩] }
    1 (by decide) ⟨1, 1, "Clock", "unclaimed"⟩ (by decide)).1.mpr
    (by decide)


theorem completeRows_key_complete (rows : List MilestoneRow) (e : Int)
    (k : String) :
    ∀ m ∈ completeRows rows e k,
      m.estateId = e → m.key = k → m.status = "complete" := by
  intro m hm hme hmk
  simp only [completeRows, List.mem_map] at hm
  obtain ⟨m0, hm0, hf⟩ := hm
  by_cases hc : m0.estateId = e ∧ m0.key = k
  · rw [if_pos hc] at hf
    rw [← hf]
  · rw [if_neg hc] at hf
    subst hf
    exact absurd ⟨hme, hmk⟩ hc

theorem completeRows_other_key (rows : List MilestoneRow) (e : Int)
    (k : String) :
    ∀ m ∈ completeRows rows e k, m.key ≠ k → m ∈ rows := by
  intro m hm hk
  simp only [completeRows, List.mem_map] at hm
  obtain ⟨m0, hm0, hf⟩ := hm
  by_cases hc : m0.estateId = e ∧ m0.key = k
  · rw [if_pos hc] at hf
    rw [← hf] at hk
    exact absurd hc.2 hk
  · rw [if_neg hc] at hf
    subst hf
    exact hm0

theorem foldResolve_milestones (db : DB) (e : Int) :
    (stewardAlertTypes.foldl (fun d t => resolveAlertType d e t)
      db).milestones = db.milestones := rfl

theorem foldResolve_members (db : DB) (e : Int) :
    (stewardAlertTypes.foldl (fun d t => resolveAlertType d e t)
      db).members = db.members := rfl

theorem foldResolve_items (db : DB) (e : Int) :
    (stewardAlertTypes.foldl (fun d t => resolveAlertType d e t)
      db).items = db.items := rfl

theorem foldResolve_claims (db : DB) (e : Int) :
    (stewardAlertTypes.foldl (fun d t => resolveAlertType d e t)
      db).claims = db.claims := rfl

theorem foldResolve_suggestions (db : DB) (e : Int) :
    (stewardAlertTypes.foldl (fun d t => resolveAlertType d e t)
      db).suggestions = db.suggestions := rfl

theorem foldResolve_auditLog (db : DB) (e : Int) :
    (stewardAlertTypes.foldl (fun d t => resolveAlertType d e t)
      db).auditLog = db.auditLog := rfl

theorem stewardConflicts_fold (db : DB) (e e2 : Int) :
    stewardConflicts
      (stewardAlertTypes.foldl (fun d t => resolveAlertType d e t) db) e2 =
      stewardConflicts db e2 := by
  simp only [stewardConflicts, foldResolve_claims, foldResolve_items]

theorem readEstateState_fold (db : DB) (e : Int) (now : Int) :
    readEstateState
      (stewardAlertTypes.foldl (fun d t => resolveAlertType d e t) db)
      e now = readEstateState db e now := by
  simp only [readEstateState, foldResolve_members, foldResolve_items,
    foldResolve_suggestions, stewardConflicts_fold]

theorem runSteward_milestones (db : DB) (e : Int) (now : Int) :
    ((runSteward db e now).1).milestones =
      autoCompleteRows db.milestones e (readEstateState db e now) := by
  simp only [runSteward, autoCompleteMilestones, readEstateState_fold,
    foldResolve_milestones]

/-- C10, confirmed: an estate whose family_members rows all carry role
`'executor'` (and at least one row exists) has the all-joined check
vacuously true over its empty set of non-executor members, so a single
sweep marks every pending `family_joined` milestone row of the estate
complete even though nobody has joined. -/
theorem c10_all_executor_autocomplete (db : DB) (e : Int) (now : Int)
    (hmem : db.members.filter (fun m => m.estateId = e) ≠ [])
    (hexec : ∀ m ∈ db.members, m.estateId = e → m.role = "executor")
    (fam : MilestoneRow)
    (hfam : lookupLastMilestone
      (db.milestones.filter (fun m => m.estateId = e)) "family_joined" =
      some fam)
    (hst : fam.status ≠ "complete") :
    ∀ m ∈ ((runSteward db e now).1).milestones,
      m.estateId = e → m.key = "family_joined" → m.status = "complete" := by
  intro m hm hme hmk
  rw [runSteward_milestones] at hm
  simp only [autoCompleteRows, hfam] at hm
  have hguard : fam.status ≠ "complete" ∧
      ((readEstateState db e now).members.all (fun mb =>
        if mb.role ≠ "executor" then mb.status = "joined" else true)) ∧
      (readEstateState db e now).members ≠ [] := by
    refine ⟨hst, ?_, hmem⟩
    rw [List.all_eq_true]
    intro mb hmb
    have hmb2 : mb ∈ db.members ∧ mb.estateId = e := by
      have := List.mem_filter.mp hmb
      simpa using this
    rw [if_neg]
    simp [hexec mb hmb2.1 hmb2.2]
  rw [if_pos hguard] at hm
  rcases hcr : lookupLastMilestone
      (db.milestones.filter (fun m => m.estateId = e))
      "conflicts_resolved" with - | cr
  · simp only [hcr] at hm
    exact completeRows_key_complete _ e "family_joined" m hm hme hmk
  · simp only [hcr] at hm
    by_cases hg2 : cr.status ≠ "complete" ∧
        (readEstateState db e now).conflicts = [] ∧
        ((lookupLastMilestone
          (db.milestones.filter (fun m => m.estateId = e))
          "claims_closed").map (fun x => x.status) = some "complete")
    · rw [if_pos hg2] at hm
      have hm2 := completeRows_other_key _ e "conflicts_resolved" m hm
        (by rw [hmk]; decide)
      exact completeRows_key_complete _ e "family_joined" m hm2 hme hmk
    · rw [if_neg hg2] at hm
      exact completeRows_key_complete _ e "family_joined" m hm hme hmk

/-- Witness for C10: a one-member estate whose only member is the
executor; after one sweep the (sole) `family_joined` milestone row in the
resulting ledger is complete. -/
theorem c10_all_executor_autocomplete_witness :
    (⟨1, "family_joined", "All family members joined", none,
      "complete"⟩ : MilestoneRow).status = "complete" :=
  c10_all_executor_autocomplete
    { DB.empty with
        members := [⟨1, "Eve", "eve@example.com", "executor", "invited",
          none, none⟩],
        milestones := [⟨1, "family_joined", "All family members joined",
          none, "pending"⟩] }
    1 0 (by decide) (by decide)
    ⟨1, "family_joined", "All family members joined", none, "pending"⟩
    (by decide) (by decide)
    ⟨1, "family_joined", "All family members joined", none, "complete"⟩
    (by decide) rfl rfl

theorem uninvitedAlert_shape (e now : Int) (m : Member) (a : Alert)
    (h : uninvitedAlert e now m = some a) :
    a.estateId = e ∧ a.active = true ∧ a.alertType = "member_not_joined" := by
  unfold uninvitedAlert at h
  split_ifs at h with h1
  rcases hinv : m.invitedAt with - | d <;> simp only [hinv] at h
  · exact Option.noConfusion h
  · split_ifs at h with h2
    rcases hday : d.day with - | t <;> simp only [hday] at h
    · exact Option.noConfusion h
    · split_ifs at h with h3 h4 <;> cases h <;> exact ⟨rfl, rfl, rfl⟩

theorem conflictAlert_shape (e now : Int) (c : ConflictRow) (a : Alert)
    (h : conflictAlert e now c = some a) :
    a.estateId = e ∧ a.active = true ∧
      a.alertType = "conflict_unresolved" := by
  unfold conflictAlert at h
  rcases hold : c.oldestClaim with - | t <;> simp only [hold] at h
  · exact Option.noConfusion h
  · split_ifs at h with h1 h2 <;> cases h <;> exact ⟨rfl, rfl, rfl⟩

theorem suggestionAlert_shape (e now : Int) (s : Suggestion) (a : Alert)
    (h : suggestionAlert e now s = some a) :
    a.estateId = e ∧ a.active = true ∧
      a.alertType = "suggestion_unreviewed" := by
  unfold suggestionAlert at h
  rcases hday : s.createdAt.day with - | t <;> simp only [hday] at h
  · exact Option.noConfusion h
  · split_ifs at h with h1 h2 <;> cases h <;> exact ⟨rfl, rfl, rfl⟩

theorem milestoneAlert_shape (e now : Int) (m : MilestoneRow) (a : Alert)
    (h : milestoneAlert e now m = some a) :
    a.estateId = e ∧ a.active = true ∧
      (a.alertType = "milestone_overdue" ∨
        a.alertType = "milestone_upcoming") := by
  unfold milestoneAlert at h
  split_ifs at h with h1
  rcases htd : m.targetDate with - | d <;> simp only [htd] at h
  · exact Option.noConfusion h
  · split_ifs at h with h2
    rcases hday : d.day with - | t <;> simp only [hday] at h
    · exact Option.noConfusion h
    · split_ifs at h with h3 h4 h5 <;>
        first
          | (cases h; exact ⟨rfl, rfl, Or.inl rfl⟩)
          | (cases h; exact ⟨rfl, rfl, Or.inr rfl⟩)
          | exact Option.noConfusion h

theorem inactivityAlert_shape (e now : Int) (log : List AuditEntry)
    (a : Alert) (h : inactivityAlert e now log = some a) :
    a.estateId = e ∧ a.active = true ∧ a.alertType = "inactivity" := by
  unfold inactivityAlert at h
  rcases hmax : ((log.filter (fun x => x.estateId = e)).map
      (fun x => x.createdAt)).max? with - | t <;> simp only [hmax] at h
  · exact Option.noConfusion h
  · split_ifs at h with h1 <;> cases h <;> exact ⟨rfl, rfl, rfl⟩

theorem sweepNewAlerts_shape (e now : Int) (st : EstateState)
    (ms : List MilestoneRow) (log : List AuditEntry) :
    ∀ a ∈ sweepNewAlerts e now st ms log,
      a.estateId = e ∧ a.active = true ∧
        a.alertType ∈ stewardAlertTypes := by
  intro a ha
  simp only [sweepNewAlerts, List.mem_append, List.mem_filterMap,
    Option.mem_toList, Option.mem_def] at ha
  rcases ha with ((((⟨m, -, hf⟩ | ⟨c, -, hf⟩) | ⟨s, -, hf⟩) | ⟨m, -, hf⟩) |
    hf)
  · obtain ⟨h1, h2, h3⟩ := uninvitedAlert_shape e now m a hf
    exact ⟨h1, h2, by rw [h3]; decide⟩
  · obtain ⟨h1, h2, h3⟩ := conflictAlert_shape e now c a hf
    exact ⟨h1, h2, by rw [h3]; decide⟩
  · obtain ⟨h1, h2, h3⟩ := suggestionAlert_shape e now s a hf
    exact ⟨h1, h2, by rw [h3]; decide⟩
  · obtain ⟨h1, h2, h3⟩ := milestoneAlert_shape e now m a hf
    rcases h3 with h3 | h3 <;> exact ⟨h1, h2, by rw [h3]; decide⟩
  · obtain ⟨h1, h2, h3⟩ := inactivityAlert_shape e now log a hf
    exact ⟨h1, h2, by rw [h3]; decide⟩

theorem resolveAlertTypeOne_inactive (e : Int) (t : String) (a : Alert)
    (h : a.active = false) : resolveAlertTypeOne e t a = a := by
  unfold resolveAlertTypeOne
  rw [if_neg]
  simp [h]

theorem resolveAlertTypeOne_fields (e : Int) (t : String) (a : Alert) :
    (resolveAlertTypeOne e t a).estateId = a.estateId ∧
    (resolveAlertTypeOne e t a).alertType = a.alertType := by
  unfold resolveAlertTypeOne
  split_ifs <;> exact ⟨rfl, rfl⟩

theorem resolveAlertTypeOne_other (e : Int) (t : String) (a : Alert)
    (h : a.alertType ≠ t) : resolveAlertTypeOne e t a = a := by
  unfold resolveAlertTypeOne
  rw [if_neg]
  simp [h]

theorem deactSteward_fields (e : Int) (a : Alert) :
    (deactSteward e a).estateId = a.estateId ∧
    (deactSteward e a).alertType = a.alertType := by
  unfold deactSteward
  exact ⟨by simp only [(resolveAlertTypeOne_fields _ _ _).1],
    by simp only [(resolveAlertTypeOne_fields _ _ _).2]⟩

theorem foldResolve_alerts (db : DB) (e : Int) :
    (stewardAlertTypes.foldl (fun d t => resolveAlertType d e t)
      db).alerts = db.alerts.map (deactSteward e) := by
  simp only [stewardAlertTypes, List.foldl_cons, List.foldl_nil,
    resolveAlertType, List.map_map]
  rfl

theorem resolveAlertTypeOne_hit (e : Int) (t : String) (a : Alert)
    (he : a.estateId = e) (ht : a.alertType = t) (ha : a.active = true) :
    resolveAlertTypeOne e t a = { a with active := false } := by
  unfold resolveAlertTypeOne
  rw [if_pos ⟨he, ht, ha⟩]

theorem resolveAlertTypeOne_wrong_estate (e : Int) (t : String) (a : Alert)
    (he : a.estateId ≠ e) : resolveAlertTypeOne e t a = a := by
  unfold resolveAlertTypeOne
  rw [if_neg]
  simp [he]

theorem deactSteward_inactive (e : Int) (a : Alert)
    (h : a.active = false) : deactSteward e a = a := by
  unfold deactSteward
  simp [resolveAlertTypeOne_inactive, h]

theorem deactSteward_active_false (e : Int) (a : Alert)
    (he : a.estateId = e) (ht : a.alertType ∈ stewardAlertTypes) :
    (deactSteward e a).active = false := by
  by_cases hact : a.active = true
  · simp only [stewardAlertTypes, List.mem_cons, List.not_mem_nil,
      or_false] at ht
    unfold deactSteward
    rcases ht with ht1 | ht1 | ht1 | ht1 | ht1 | ht1
    · rw [resolveAlertTypeOne_hit e _ a he ht1 hact]
      simp [resolveAlertTypeOne_inactive]
    · rw [resolveAlertTypeOne_other e "member_not_joined" a
        (by rw [ht1]; decide),
        resolveAlertTypeOne_hit e _ a he ht1 hact]
      simp [resolveAlertTypeOne_inactive]
    · rw [resolveAlertTypeOne_other e "member_not_joined" a
        (by rw [ht1]; decide),
        resolveAlertTypeOne_other e "conflict_unresolved" a
        (by rw [ht1]; decide),
        resolveAlertTypeOne_hit e _ a he ht1 hact]
      simp [resolveAlertTypeOne_inactive]
    · rw [resolveAlertTypeOne_other e "member_not_joined" a
        (by rw [ht1]; decide),
        resolveAlertTypeOne_other e "conflict_unresolved" a
        (by rw [ht1]; decide),
        resolveAlertTypeOne_other e "suggestion_unreviewed" a
        (by rw [ht1]; decide),
        resolveAlertTypeOne_hit e _ a he ht1 hact]
      simp [resolveAlertTypeOne_inactive]
    · rw [resolveAlertTypeOne_other e "member_not_joined" a
        (by rw [ht1]; decide),
        resolveAlertTypeOne_other e "conflict_unresolved" a
        (by rw [ht1]; decide),
        resolveAlertTypeOne_other e "suggestion_unreviewed" a
        (by rw [ht1]; decide),
        resolveAlertTypeOne_other e "milestone_overdue" a
        (by rw [ht1]; decide),
        resolveAlertTypeOne_hit e _ a he ht1 hact]
      simp [resolveAlertTypeOne_inactive]
    · rw [resolveAlertTypeOne_other e "member_not_joined" a
        (by rw [ht1]; decide),
        resolveAlertTypeOne_other e "conflict_unresolved" a
        (by rw [ht1]; decide),
        resolveAlertTypeOne_other e "suggestion_unreviewed" a
        (by rw [ht1]; decide),
        resolveAlertTypeOne_other e "milestone_overdue" a
        (by rw [ht1]; decide),
        resolveAlertTypeOne_other e "milestone_upcoming" a
        (by rw [ht1]; decide),
        resolveAlertTypeOne_hit e _ a he ht1 hact]
  · have hf : a.active = false := by
      revert hact
      cases a.active <;> simp
    rw [deactSteward_inactive e a hf]
    exact hf

theorem deactSteward_miss (e : Int) (a : Alert)
    (h : ¬ (a.estateId = e ∧ a.alertType ∈ stewardAlertTypes)) :
    deactSteward e a = a := by
  by_cases he : a.estateId = e
  · have ht : a.alertType ∉ stewardAlertTypes := fun c => h ⟨he, c⟩
    simp only [stewardAlertTypes, List.mem_cons, List.not_mem_nil,
      or_false, not_or] at ht
    obtain ⟨t1, t2, t3, t4, t5, t6⟩ := ht
    unfold deactSteward
    rw [resolveAlertTypeOne_other e _ a t1,
      resolveAlertTypeOne_other e _ a t2,
      resolveAlertTypeOne_other e _ a t3,
      resolveAlertTypeOne_other e _ a t4,
      resolveAlertTypeOne_other e _ a t5,
      resolveAlertTypeOne_other e _ a t6]
  · unfold deactSteward
    rw [resolveAlertTypeOne_wrong_estate e _ a he,
      resolveAlertTypeOne_wrong_estate e _ a he,
      resolveAlertTypeOne_wrong_estate e _ a he,
      resolveAlertTypeOne_wrong_estate e _ a he,
      resolveAlertTypeOne_wrong_estate e _ a he,
      resolveAlertTypeOne_wrong_estate e _ a he]

theorem deactSteward_idem (e : Int) (a : Alert) :
    deactSteward e (deactSteward e a) = deactSteward e a := by
  by_cases h : a.estateId = e ∧ a.alertType ∈ stewardAlertTypes
  · exact deactSteward_inactive e _
      (deactSteward_active_false e a h.1 h.2)
  · rw [deactSteward_miss e a h, deactSteward_miss e a h]

theorem autoCompleteMilestones_alerts (db : DB) (e : Int)
    (st : EstateState) : (autoCompleteMilestones db e st).alerts =
      db.alerts := rfl

theorem getMilestones_fold (db : DB) (e e2 : Int) :
    getMilestones
      (stewardAlertTypes.foldl (fun d t => resolveAlertType d e t) db) e2 =
      getMilestones db e2 := by
  simp only [getMilestones, foldResolve_milestones]

theorem runSteward_state_members (db : DB) (e now : Int) :
    ((runSteward db e now).1).members = db.members := by
  simp only [runSteward, autoCompleteMilestones, foldResolve_members]

theorem runSteward_state_items (db : DB) (e now : Int) :
    ((runSteward db e now).1).items = db.items := by
  simp only [runSteward, autoCompleteMilestones, foldResolve_items]

theorem runSteward_state_claims (db : DB) (e now : Int) :
    ((runSteward db e now).1).claims = db.claims := by
  simp only [runSteward, autoCompleteMilestones, foldResolve_claims]

theorem runSteward_state_suggestions (db : DB) (e now : Int) :
    ((runSteward db e now).1).suggestions = db.suggestions := by
  simp only [runSteward, autoCompleteMilestones, foldResolve_suggestions]

theorem runSteward_state_auditLog (db : DB) (e now : Int) :
    ((runSteward db e now).1).auditLog = db.auditLog := by
  simp only [runSteward, autoCompleteMilestones, foldResolve_auditLog]

theorem stewardConflicts_runSteward (db : DB) (e now e2 : Int) :
    stewardConflicts ((runSteward db e now).1) e2 =
      stewardConflicts db e2 := by
  simp only [stewardConflicts, runSteward_state_items,
    runSteward_state_claims]

theorem readEstateState_runSteward (db : DB) (e now : Int) :
    readEstateState ((runSteward db e now).1) e now =
      readEstateState db e now := by
  simp only [readEstateState, runSteward_state_members,
    runSteward_state_items, runSteward_state_suggestions,
    stewardConflicts_runSteward]

theorem runSteward_state_alerts (db : DB) (e now : Int) :
    ((runSteward db e now).1).alerts =
      db.alerts.map (deactSteward e) ++
        sweepNewAlerts e now (readEstateState db e now)
          (getMilestones db e) db.auditLog := by
  simp only [runSteward, autoCompleteMilestones_alerts,
    readEstateState_fold, getMilestones_fold, foldResolve_auditLog]
  rw [foldResolve_alerts]

theorem runSteward_snd (db : DB) (e now : Int) :
    (runSteward db e now).2 =
      (db.alerts.map (deactSteward e)).filter
        (fun a => a.estateId = e ∧ a.active) ++
      sweepNewAlerts e now (readEstateState db e now) (getMilestones db e)
        db.auditLog := by
  simp only [runSteward, getActiveAlerts, autoCompleteMilestones_alerts,
    readEstateState_fold, getMilestones_fold, foldResolve_auditLog]
  rw [foldResolve_alerts, List.filter_append]
  congr 1
  rw [List.filter_eq_self]
  intro a ha
  obtain ⟨h1, h2, -⟩ := sweepNewAlerts_shape e now _ _ _ a ha
  simp [h1, h2]

/-- C1, amended: the sweep is idempotent whenever its auto-complete pass
changes no milestone row (the sweep's only ledger write besides the alert
reset/re-derive).  When the first sweep auto-completes a milestone, the
second sweep skips that milestone's alert, so the active-alert sets can
differ (see the counterexample). -/
theorem c1_sweep_idempotent_without_autocomplete (db : DB) (e now : Int)
    (H : ((runSteward db e now).1).milestones = db.milestones) :
    (runSteward ((runSteward db e now).1) e now).2 =
      (runSteward db e now).2 := by
  rw [runSteward_snd ((runSteward db e now).1) e now,
    runSteward_snd db e now]
  have hms : getMilestones ((runSteward db e now).1) e =
      getMilestones db e := by
    simp only [getMilestones, H]
  rw [readEstateState_runSteward, hms, runSteward_state_auditLog,
    runSteward_state_alerts]
  congr 1
  rw [List.map_append, List.filter_append, List.map_map]
  have hcomp : deactSteward e ∘ deactSteward e = deactSteward e :=
    funext (deactSteward_idem e)
  rw [hcomp]
  have hnil : ((sweepNewAlerts e now (readEstateState db e now)
      (getMilestones db e) db.auditLog).map (deactSteward e)).filter
      (fun a => a.estateId = e ∧ a.active) = [] := by
    rw [List.filter_eq_nil]
    intro b hb
    obtain ⟨a, ha, rfl⟩ := List.mem_map.mp hb
    obtain ⟨h1, -, h3⟩ := sweepNewAlerts_shape e now _ _ _ a ha
    have hact := deactSteward_active_false e a h1 h3
    simp [hact]
  rw [hnil, List.append_nil]

/-- Witness for C1 at a concrete input (an estate on which the
auto-complete pass does nothing). -/
theorem c1_sweep_idempotent_without_autocomplete_witness :
    (runSteward ((runSteward DB.empty 1 10).1) 1 10).2 =
      (runSteward DB.empty 1 10).2 :=
  c1_sweep_idempotent_without_autocomplete DB.empty 1 10 (by decide)

/-- C1, counterexample: one member (non-executor, joined) plus one pending
`family_joined` milestone 10 days overdue.  The first sweep reports the
overdue milestone and then auto-completes it; the second sweep, with no
intervening external change, reports no alerts at all — the sweep is not
idempotent across the auto-complete. -/
theorem c1_counterexample :
    (runSteward
      { DB.empty with
          members := [⟨1, "Ann", "ann@example.com", "member", "joined",
            none, none⟩],
          milestones := [⟨1, "family_joined", "All family members joined",
            some ⟨"2000-01-01", some 0⟩, "pending"⟩] }
      1 10).2.map (fun a => (a.alertType, a.severity)) =
      [("milestone_overdue", "critical")] ∧
    (runSteward ((runSteward
      { DB.empty with
          members := [⟨1, "Ann", "ann@example.com", "member", "joined",
            none, none⟩],
          milestones := [⟨1, "family_joined", "All family members joined",
            some ⟨"2000-01-01", some 0⟩, "pending"⟩] }
      1 10).1) 1 10).2 = [] := by decide

/-- C2, amended: a member with status `'invited'`, a truthy parseable
`invited_at`, and at least 14 days elapsed yields exactly one
`member_not_joined` alert in the sweep's output — but its severity is
`'warning'`, not the claimed `'critical'` (the source writes
`severity='warning'` in the ≥ 14-day branch of
`check_uninvited_members`).  The sweep's `member_not_joined` alerts are
exactly one per qualifying estate member. -/
theorem c2_member_not_joined_warning (db : DB) (e now : Int) (m : Member)
    (hm : m.status = "invited") (d : DateStr) (hd : m.invitedAt = some d)
    (hraw : d.raw ≠ "") (t : Int) (ht : d.day = some t)
    (h14 : 14 ≤ now - t) :
    uninvitedAlert e now m = some ⟨e, "member_not_joined", "warning",
      m.name ++ " has not joined after " ++ toString (now - t) ++ " days.",
      "Invited: " ++ d.raw.take 10 ++ ". Email: " ++ m.email ++
        ". Consider a personal call or checking if the email is correct.",
      true, now⟩ ∧
    (runSteward db e now).2.filter
        (fun a => a.alertType = "member_not_joined") =
      (db.members.filter (fun mb => mb.estateId = e)).filterMap
        (uninvitedAlert e now) := by
  constructor
  · unfold uninvitedAlert
    simp [hm, hd, ht, hraw, h14]
  · rw [runSteward_snd, List.filter_append]
    have hS : ((db.alerts.map (deactSteward e)).filter
        (fun a => a.estateId = e ∧ a.active)).filter
        (fun a => a.alertType = "member_not_joined") = [] := by
      rw [List.filter_eq_nil]
      intro b hb
      obtain ⟨hb1, hb2⟩ := List.mem_filter.mp hb
      obtain ⟨a, ha, rfl⟩ := List.mem_map.mp hb1
      intro hty
      have hty2 : (deactSteward e a).alertType = "member_not_joined" := by
        simpa using hty
      obtain ⟨hfe, hft⟩ := deactSteward_fields e a
      have he2 : (deactSteward e a).estateId = e ∧
          (deactSteward e a).active = true := by simpa using hb2
      have hfalse := deactSteward_active_false e a (by rw [← hfe, he2.1])
        (by rw [← hft, hty2]; decide)
      rw [he2.2] at hfalse
      exact Bool.noConfusion hfalse
    rw [hS, List.nil_append]
    simp only [sweepNewAlerts, List.filter_append]
    rw [List.filter_eq_self.mpr ?hu, List.filter_eq_nil.mpr ?hc,
      List.filter_eq_nil.mpr ?hs, List.filter_eq_nil.mpr ?hm2,
      List.filter_eq_nil.mpr ?hi, List.append_nil, List.append_nil,
      List.append_nil, List.append_nil]
    case hu =>
      intro a ha
      obtain ⟨mb, -, hf⟩ := List.mem_filterMap.mp ha
      obtain ⟨-, -, h3⟩ := uninvitedAlert_shape e now mb a hf
      simp [h3]
    case hc =>
      intro a ha
      obtain ⟨c, -, hf⟩ := List.mem_filterMap.mp ha
      obtain ⟨-, -, h3⟩ := conflictAlert_shape e now c a hf
      simp [h3]
    case hs =>
      intro a ha
      obtain ⟨s, -, hf⟩ := List.mem_filterMap.mp ha
      obtain ⟨-, -, h3⟩ := suggestionAlert_shape e now s a hf
      simp [h3]
    case hm2 =>
      intro a ha
      obtain ⟨mr, -, hf⟩ := List.mem_filterMap.mp ha
      obtain ⟨-, -, h3⟩ := milestoneAlert_shape e now mr a hf
      rcases h3 with h3 | h3 <;> simp [h3]
    case hi =>
      intro a ha
      rw [Option.mem_toList, Option.mem_def] at ha
      obtain ⟨-, -, h3⟩ := inactivityAlert_shape e now db.auditLog a ha
      simp [h3]
    rfl

/-- C2, counterexample: a member invited 15 days ago and not joined; the
sweep produces exactly one `member_not_joined` alert, and its severity is
`'warning'`, not `'critical'`. -/
theorem c2_counterexample :
    (runSteward
      { DB.empty with
          members := [⟨1, "Ann", "ann@example.com", "member", "invited",
            some ⟨"2000-01-01T09:00:00", some 0⟩, none⟩] }
      1 15).2.map (fun a => (a.alertType, a.severity)) =
      [("member_not_joined", "warning")] ∧
    ("warning" : String) ≠ "critical" := by decide

/-- Witness for C2 at a concrete input. -/
theorem c2_member_not_joined_warning_witness :
    uninvitedAlert 1 15 ⟨1, "Ann", "ann@example.com", "member", "invited",
        some ⟨"2000-01-01T09:00:00", some 0⟩, none⟩ =
      some ⟨1, "member_not_joined", "warning",
        "Ann" ++ " has not joined after " ++ toString ((15 : Int) - 0) ++
          " days.",
        "Invited: " ++ ("2000-01-01T09:00:00" : String).take 10 ++
          ". Email: " ++ "ann@example.com" ++
          ". Consider a personal call or checking if the email is correct.",
        true, 15⟩ ∧
    (runSteward
      { DB.empty with
          members := [⟨1, "Ann", "ann@example.com", "member", "invited",
            some ⟨"2000-01-01T09:00:00", some 0⟩, none⟩] }
      1 15).2.filter (fun a => a.alertType = "member_not_joined") =
      (({ DB.empty with
          members := [⟨1, "Ann", "ann@example.com", "member", "invited",
            some ⟨"2000-01-01T09:00:00", some 0⟩, none⟩] } : DB).members.filter
        (fun mb => mb.estateId = 1)).filterMap (uninvitedAlert 1 15) :=
  c2_member_not_joined_warning
    { DB.empty with
        members := [⟨1, "Ann", "ann@example.com", "member", "invited",
          some ⟨"2000-01-01T09:00:00", some 0⟩, none⟩] }
    1 15 ⟨1, "Ann", "ann@example.com", "member", "invited",
      some ⟨"2000-01-01T09:00:00", some 0⟩, none⟩
    rfl ⟨"2000-01-01T09:00:00", some 0⟩ rfl (by decide) 0 rfl (by decide)

/-- C5, counterexample: `resolve_claim` has no already-distributed guard.
Add one item and one claim, then call `resolve_claim` twice: the second
call inserts a second distribution row, so the item is `'distributed'`
with all claims resolved yet referenced by TWO rows — the iff and the
exactly-once clause both fail on this reachable ledger. -/
theorem c5_counterexample :
    (applyLOp (applyLOp (applyLOp (applyLOp DB.empty
        (.addItem 1 "Ring"))
        (.addClaim 1 1 2 "Ann" "want" 1 0))
        (.resolveClaim 1 2 "Ann" "lottery" 0 1))
        (.resolveClaim 1 2 "Ann" "lottery" 0 2)).dists.length = 2 ∧
    (applyLOp (applyLOp (applyLOp (applyLOp DB.empty
        (.addItem 1 "Ring"))
        (.addClaim 1 1 2 "Ann" "want" 1 0))
        (.resolveClaim 1 2 "Ann" "lottery" 0 1))
        (.resolveClaim 1 2 "Ann" "lottery" 0 2)).items.map Item.status =
      ["distributed"] ∧
    ¬ DistributedIff
      (applyLOp (applyLOp (applyLOp (applyLOp DB.empty
        (.addItem 1 "Ring"))
        (.addClaim 1 1 2 "Ann" "want" 1 0))
        (.resolveClaim 1 2 "Ann" "lottery" 0 1))
        (.resolveClaim 1 2 "Ann" "lottery" 0 2)) := by
  refine ⟨rfl, rfl, ?_⟩
  intro h
  have := (h ⟨1, 1, "Ring", "distributed"⟩ (by decide)).mp rfl
  exact absurd this.1 (by decide)

theorem resolvedClaims_congr (claims : List ClaimRow) (i now itid : Int)
    (hne : itid ≠ i) :
    (∀ c ∈ claims.map (fun c => if c.itemId = i then
        { c with status := "resolved", resolvedAt := some now } else c),
      c.itemId = itid → c.status = "resolved") ↔
    (∀ c ∈ claims, c.itemId = itid → c.status = "resolved") := by
  constructor
  · intro hall c hc hcid
    have hgc : (if c.itemId = i then
        { c with status := "resolved", resolvedAt := some now } else c) =
        c := by
      rw [if_neg]
      rw [hcid]
      exact hne
    have h2 := hall _ (List.mem_map.mpr ⟨c, hc, rfl⟩)
      (by rw [hgc]; exact hcid)
    rw [hgc] at h2
    exact h2
  · intro hall c' hc' hcid
    obtain ⟨c, hc, rfl⟩ := List.mem_map.mp hc'
    by_cases hci : c.itemId = i
    · simp [hci]
    · rw [if_neg hci] at hcid ⊢
      exact hall c hc hcid

theorem reachable_ledgerGood (db : DB) (h : ReachableLedger db) :
    LedgerGood db := by
  induction h with
  | empty =>
    refine ⟨?_, ?_, ?_⟩ <;> simp [DB.empty, DistributedIff]
  | step op hr hok ih =>
    obtain ⟨wf1, wf2, inv⟩ := ih
    rename_i db0
    cases op with
    | addItem e n =>
      simp only [LOpOk] at hok
      refine ⟨?_, ?_, ?_⟩
      · intro it hit
        simp only [applyLOp, addItem, List.mem_append,
          List.mem_singleton] at hit
        simp only [applyLOp, addItem]
        rcases hit with hit | rfl
        · obtain ⟨h1, h2⟩ := wf1 it hit
          exact ⟨by omega, h2⟩
        · refine ⟨?_, hok⟩
          show db0.nextItemId < db0.nextItemId + 1
          omega
      · intro dd hdd
        simp only [applyLOp, addItem] at hdd ⊢
        obtain ⟨it, hit, hid, hst⟩ := wf2 dd hdd
        exact ⟨it, List.mem_append_left _ hit, hid, hst⟩
      · simp only [DistributedIff, applyLOp, addItem] at inv ⊢
        intro it hit
        simp only [List.mem_append, List.mem_singleton] at hit
        rcases hit with hit | rfl
        · exact inv it hit
        · constructor
          · intro hl
            exact absurd hl (by simp)
          · rintro ⟨hcount, -⟩
            exfalso
            have hempty : db0.dists.filter
                (fun dd => dd.itemId = db0.nextItemId) = [] := by
              rw [List.filter_eq_nil]
              intro dd hdd hp
              obtain ⟨it2, hit2, hid2, -⟩ := wf2 dd hdd
              have hlt := (wf1 it2 hit2).1
              simp only [decide_eq_true_eq] at hp
              omega
            rw [hempty] at hcount
            simp at hcount
    | addClaim i e mId nm ct p now =>
      simp only [LOpOk] at hok
      refine ⟨?_, ?_, ?_⟩
      · intro it hit
        simp only [applyLOp, addClaim] at hit ⊢
        exact wf1 it hit
      · intro dd hdd
        simp only [applyLOp, addClaim] at hdd ⊢
        exact wf2 dd hdd
      · simp only [DistributedIff, applyLOp, addClaim] at inv ⊢
        intro it hit
        by_cases hid : it.id = i
        · have hnd := hok it hit hid
          constructor
          · intro hl
            exact absurd hl hnd
          · rintro ⟨-, hall⟩
            exfalso
            have hnewc := hall
              ⟨db0.nextClaimId, i, e, mId, nm, ct, p, "pending", now, none⟩
              (by simp) (by simpa using hid.symm)
            exact absurd hnewc (by simp)
        · have base := inv it hit
          constructor
          · intro hl
            obtain ⟨h1, h2⟩ := base.mp hl
            refine ⟨h1, ?_⟩
            intro c hc hcid
            simp only [List.mem_append, List.mem_singleton] at hc
            rcases hc with hc | rfl
            · exact h2 c hc hcid
            · exact absurd (show i = it.id from hcid).symm hid
          · rintro ⟨h1, h2⟩
            refine base.mpr ⟨h1, ?_⟩
            intro c hc hcid
            exact h2 c (List.mem_append_left _ hc) hcid
    | resolveClaim i w nm meth v now =>
      simp only [LOpOk] at hok
      simp only [applyLOp, resolveClaim]
      split
      · rename_i heq
        have hnone : ∀ it ∈ db0.items, ¬ it.id = i := by
          intro it hit hcontra
          have hmem : (if it.id = i then
              { it with status := "distributed" } else it) ∈
              db0.items.map (fun it => if it.id = i then
                { it with status := "distributed" } else it) :=
            List.mem_map.mpr ⟨it, hit, rfl⟩
          have := List.find?_eq_none.mp heq _ hmem
          rw [if_pos hcontra] at this
          simp at this
          exact this hcontra
        have hmapf : db0.items.map (fun it => if it.id = i then
            { it with status := "distributed" } else it) = db0.items := by
          conv_rhs => rw [← List.map_id db0.items]
          apply List.map_congr_left
          intro it hit
          simp [hnone it hit]
        refine ⟨?_, ?_, ?_⟩
        · intro it hit
          rw [hmapf] at hit
          exact wf1 it hit
        · intro dd hdd
          obtain ⟨it, hit, hid, hst⟩ := wf2 dd hdd
          rw [hmapf]
          exact ⟨it, hit, hid, hst⟩
        · simp only [DistributedIff] at inv ⊢
          intro it hit
          rw [hmapf] at hit
          have hne : it.id ≠ i := hnone it hit
          have hcl := resolvedClaims_congr db0.claims i now it.id hne
          constructor
          · intro hl
            obtain ⟨h1, h2⟩ := (inv it hit).mp hl
            exact ⟨h1, hcl.mpr h2⟩
          · rintro ⟨h1, h2⟩
            exact (inv it hit).mpr ⟨h1, hcl.mp h2⟩
      · rename_i it0 heq
        have hid0 : it0.id = i := by
          have := List.find?_some heq
          simpa using this
        have hmem0 := List.mem_of_find?_eq_some heq
        obtain ⟨ita, hita, hfa⟩ := List.mem_map.mp hmem0
        have hitaid : ita.id = i := by
          by_cases hc : ita.id = i
          · exact hc
          · rw [if_neg hc] at hfa
            rw [hfa]
            exact hid0
        have hest : it0.estateId = ita.estateId := by
          rw [if_pos hitaid] at hfa
          rw [← hfa]
        have hno_old : ∀ dd ∈ db0.dists, dd.itemId ≠ i := by
          intro dd hdd hcon
          obtain ⟨it2, hit2, hid2, hst2⟩ := wf2 dd hdd
          exact hok it2 hit2 (by rw [hid2, hcon]) hst2
        split_ifs with h0
        · exact absurd (hest ▸ h0) (wf1 ita hita).2
        · refine ⟨?_, ?_, ?_⟩
          · intro it hit
            obtain ⟨itb, hitb, hfb⟩ := List.mem_map.mp hit
            obtain ⟨hb1, hb2⟩ := wf1 itb hitb
            by_cases hc : itb.id = i
            · rw [if_pos hc] at hfb
              rw [← hfb]
              exact ⟨hb1, hb2⟩
            · rw [if_neg hc] at hfb
              rw [← hfb]
              exact ⟨hb1, hb2⟩
          · intro dd hdd
            simp only [List.mem_append, List.mem_singleton] at hdd
            rcases hdd with hdd | rfl
            · obtain ⟨it2, hit2, hid2, hst2⟩ := wf2 dd hdd
              have hne2 : it2.id ≠ i := by
                intro hcon
                exact hok it2 hit2 hcon hst2
              refine ⟨it2, List.mem_map.mpr ⟨it2, hit2, ?_⟩, hid2, hst2⟩
              rw [if_neg hne2]
            · refine ⟨it0, hmem0, ?_, ?_⟩
              · simpa using hid0
              · rw [if_pos hitaid] at hfa
                rw [← hfa]
          · simp only [DistributedIff] at inv ⊢
            intro it hit
            obtain ⟨itb, hitb, hfb⟩ := List.mem_map.mp hit
            by_cases hc : itb.id = i
            · rw [if_pos hc] at hfb
              rw [← hfb]
              refine iff_of_true rfl ?_
              refine ⟨?_, ?_⟩
              · rw [List.filter_append]
                have hleft : db0.dists.filter
                    (fun dd => dd.itemId =
                      ({ itb with status := "distributed" } : Item).id) =
                    [] := by
                  rw [List.filter_eq_nil]
                  intro dd hdd hp
                  simp only [decide_eq_true_eq] at hp
                  apply hno_old dd hdd
                  rw [hp]
                  exact hc
                rw [hleft, List.nil_append]
                simp [hc]
              · intro c hc2 hcid
                obtain ⟨c0, hc0, hfc⟩ := List.mem_map.mp hc2
                by_cases hci : c0.itemId = i
                · rw [if_pos hci] at hfc
                  rw [← hfc]
                · rw [if_neg hci] at hfc
                  subst hfc
                  exact absurd (show c0.itemId = i from
                    by rw [hcid]; exact hc) hci
            · rw [if_neg hc] at hfb
              rw [← hfb]
              have hcl := resolvedClaims_congr db0.claims i now itb.id hc
              have base := inv itb hitb
              have hdists : (db0.dists ++
                  [(⟨i, it0.estateId, w, nm, v, meth, now⟩ : DistRow)]).filter
                  (fun dd => dd.itemId = itb.id) =
                  db0.dists.filter (fun dd => dd.itemId = itb.id) := by
                rw [List.filter_append]
                have : ([(⟨i, it0.estateId, w, nm, v, meth,
                    now⟩ : DistRow)]).filter
                    (fun dd => dd.itemId = itb.id) = [] := by
                  simp
                  intro hcon
                  exact hc hcon.symm
                rw [this, List.append_nil]
              constructor
              · intro hl
                obtain ⟨h1, h2⟩ := base.mp hl
                rw [hdists]
                exact ⟨h1, hcl.mpr h2⟩
              · rintro ⟨h1, h2⟩
                rw [hdists] at h1
                exact base.mpr ⟨h1, hcl.mp h2⟩

/-- C5, amended: the distributed-iff invariant holds in every ledger state
reachable under the discipline the code itself does not enforce: items
created under a real estate id, no claim added to a distributed item, and
`resolve_claim` run at most once per item (each call flips the item,
resolves all its claims and inserts its distribution row atomically, in
one commit).  Without that discipline a second `resolve_claim` call
inserts a second distribution row (see the counterexample). -/
theorem c5_distribution_invariant (db : DB) (h : ReachableLedger db) :
    DistributedIff db :=
  (reachable_ledgerGood db h).2.2

/-- Witness for C5: add an item, claim it, resolve it once — the invariant
holds in the resulting ledger. -/
theorem c5_distribution_invariant_witness :
    DistributedIff
      (applyLOp (applyLOp (applyLOp DB.empty
        (.addItem 1 "Ring"))
        (.addClaim 1 1 2 "Ann" "want" 1 0))
        (.resolveClaim 1 2 "Ann" "lottery" 0 1)) :=
  c5_distribution_invariant _
    (ReachableLedger.step (.resolveClaim 1 2 "Ann" "lottery" 0 1)
      (ReachableLedger.step (.addClaim 1 1 2 "Ann" "want" 1 0)
        (ReachableLedger.step (.addItem 1 "Ring")
          ReachableLedger.empty (by simp only [LOpOk]; decide))
        (by simp only [LOpOk]; decide))
      (by simp only [LOpOk]; decide))
